import Mathlib

/-!
Verification of the invoice payment-gateway core: a shallow embedding of the
repository data model (Invoice rows, gateway notifications), the pure
validation functions of `midtrans.service.ts`, the repository operations of
`MikroOrmInvoiceRepository.ts` / `invoice.service.legacy.ts`, the payment-link
coordinator `generatePaymentLink`, and the three webhook notification route
handlers, together with theorems settling the behavioural claims about them.

Conventions of the embedding:
- timestamps (`Date.now()`, `new Date()`) are `Nat` milliseconds threaded as an
  explicit `now` argument;
- nullable columns are `Option`; JavaScript string truthiness is emptiness;
- the database is a `List Invoice`; `em.findOne` is `List.find?` and an
  in-place entity mutation is `updateFirst` on the first matching row;
- external primitives that are not code of this repository (node `crypto`
  SHA-512, the JavaScript `Number` coercion, the Midtrans HTTP call) are
  parameters of the embedding (`sha512hex`, `jsNumber`, an `Except` argument
  for the gateway call result).
-/

namespace PaymentGateway

/-- The invoice status vocabulary `PENDING | PAID | FAILED | EXPIRED`
(entity default `PENDING`). -/
inductive InvoiceStatus
  | PENDING
  | PAID
  | FAILED
  | EXPIRED
deriving DecidableEq, Repr

/-- One row of the `invoices` table, after `InvoiceEntity.ts`. -/
structure Invoice where
  id : String
  orderId : String
  amount : Int
  status : InvoiceStatus
  paymentType : Option String
  bank : Option String
  vaNumber : Option String
  expiredAt : Option Nat
  paidAt : Option Nat
  gateway : String
  gatewayResponse : Option String
  createdAt : Nat
  updatedAt : Nat
  deletedAt : Option Nat
  paymentLink : Option String
  paymentLinkCreatedAt : Option Nat
  paymentAttemptCount : Nat
deriving DecidableEq, Repr

/-- The inbound webhook body (`MidtransNotification` interface): snake_case
fields from the gateway, plus `raw`, standing for `JSON.stringify` of the whole
body where the code stores it as audit data. -/
structure Notification where
  order_id : String
  transaction_id : String
  transaction_status : String
  payment_type : Option String
  bank : Option String
  va_number : Option String
  status_code : String
  gross_amount : String
  signature_key : String
  raw : String
deriving DecidableEq, Repr

/-- Environment and JavaScript primitives external to the repository code:
`midtransEnv.IS_PRODUCTION`, `midtransEnv.SERVER_KEY`, the node `crypto`
SHA-512 hex digest, and the JavaScript `Number` coercion (`none` models
`NaN`). -/
structure JsEnv where
  isProduction : Bool
  serverKey : String
  sha512hex : String → String
  jsNumber : String → Option Int

/-- The database: the `invoices` table as a list of rows. -/
abbrev DB := List Invoice

/-- `verifySignature` of `midtrans.service.ts`: skip outside production,
otherwise compare the SHA-512 hex digest of
`order_id ++ status_code ++ gross_amount ++ serverKey` with the presented
signature. -/
def verifySignature (env : JsEnv) (n : Notification) (signature : String) : Bool :=
  if !env.isProduction then true
  else
    env.sha512hex (n.order_id ++ n.status_code ++ n.gross_amount ++ env.serverKey)
      == signature

/-- The local `verifySignature` of the `callbackRoute` file: no production
switch; missing fields fail, otherwise the same digest comparison against the
body field `signature_key`. -/
def verifySignatureCallback (env : JsEnv) (n : Notification) : Bool :=
  if n.order_id == "" || n.status_code == "" || n.gross_amount == ""
      || n.signature_key == "" then false
  else
    env.sha512hex (n.order_id ++ n.status_code ++ n.gross_amount ++ env.serverKey)
      == n.signature_key

/-- Schema-validation failures of `validateWebhookRequest`. -/
inductive WebhookValidationError
  | missingOrderIdOrTransactionStatus
  | missingTransactionId
  | missingGrossAmount
deriving DecidableEq, Repr

/-- `validateWebhookRequest`: require truthy `order_id`,
`transaction_status`, `transaction_id`, `gross_amount`. -/
def validateWebhookRequest (n : Notification) : Option WebhookValidationError :=
  if n.order_id == "" || n.transaction_status == "" then
    some .missingOrderIdOrTransactionStatus
  else if n.transaction_id == "" then
    some .missingTransactionId
  else if n.gross_amount == "" then
    some .missingGrossAmount
  else
    none

/-- Business-rule failures of `validatePaymentRules`. -/
inductive PaymentRuleError
  | amountMismatch
  | alreadyPaid
  | invoiceExpired
  | invalidStatusForPayment
deriving DecidableEq, Repr

/-- `validatePaymentRules`: the paid amount `Number(gross_amount)` must equal
the invoice amount exactly; a `PAID` or `EXPIRED` invoice rejects any payment;
only `PENDING` or `FAILED` invoices may receive one. -/
def validatePaymentRules (env : JsEnv) (invoice : Invoice) (n : Notification) :
    Option PaymentRuleError :=
  if env.jsNumber n.gross_amount != some invoice.amount then
    some .amountMismatch
  else if invoice.status == InvoiceStatus.PAID then
    some .alreadyPaid
  else if invoice.status == InvoiceStatus.EXPIRED then
    some .invoiceExpired
  else if invoice.status != InvoiceStatus.PENDING
      && invoice.status != InvoiceStatus.FAILED then
    some .invalidStatusForPayment
  else
    none

/-- `isValidStatusTransition` of `midtrans.service.ts`: false when the current
status is in the final-status list, then `currentStatus === PENDING`. The
`newStatus` argument is received but never inspected. -/
def isValidStatusTransition (currentStatus newStatus : InvoiceStatus) : Bool :=
  if currentStatus == InvoiceStatus.PAID || currentStatus == InvoiceStatus.FAILED
      || currentStatus == InvoiceStatus.EXPIRED then
    false
  else
    currentStatus == InvoiceStatus.PENDING

/-- The local `isValidStatusTransition` of the `callbackRoute` file: reject a
final current status, accept a `PENDING` current status, otherwise reject. -/
def isValidStatusTransitionCallback (currentStatus newStatus : InvoiceStatus) : Bool :=
  if currentStatus == InvoiceStatus.PAID || currentStatus == InvoiceStatus.FAILED
      || currentStatus == InvoiceStatus.EXPIRED then
    false
  else if currentStatus == InvoiceStatus.PENDING then
    true
  else
    false

/-- `mapMidtransStatusToInvoice`: the closed vendor-status table. -/
def mapMidtransStatusToInvoice (transactionStatus : String) : Option InvoiceStatus :=
  if transactionStatus == "settlement" || transactionStatus == "capture" then
    some InvoiceStatus.PAID
  else if transactionStatus == "pending" then
    some InvoiceStatus.PENDING
  else if transactionStatus == "expire" || transactionStatus == "cancel" then
    some InvoiceStatus.EXPIRED
  else if transactionStatus == "deny" || transactionStatus == "failure" then
    some InvoiceStatus.FAILED
  else
    none

/-- Errors thrown by the service and repository layers, one constructor per
distinct thrown message. -/
inductive ServiceError
  | invoiceNotFound
  | invoiceWithOrderIdNotFound
  | invoiceAlreadyExists
  | invalidCallbackData
  | invoiceNotFoundCallback
  | invalidTransactionStatus
  | invoiceAlreadyPaid
  | invoiceExpired
  | maxPaymentAttemptsReached
  | activePaymentLinkExists
  | midtransApiError (msg : String)
deriving DecidableEq, Repr

/-- The camelCase payment metadata accepted by `updateStatus` and
`updateStatusByOrderId`. -/
structure UpdateStatusData where
  paymentType : Option String
  bank : Option String
  vaNumber : Option String
  gatewayResponse : Option String
deriving DecidableEq, Repr

/-- Outcome vocabulary of the atomic conditional update. -/
inductive CASResult
  | SUCCESS
  | NOOP
deriving DecidableEq, Repr

/-- The filter `{ id, deletedAt: null }` used by every by-id lookup. -/
def aliveWithId (id : String) (inv : Invoice) : Bool :=
  inv.id == id && inv.deletedAt == none

/-- The filter `{ orderId, deletedAt: null }` used by every by-orderId lookup. -/
def aliveWithOrderId (orderId : String) (inv : Invoice) : Bool :=
  inv.orderId == orderId && inv.deletedAt == none

/-- Mutation of the single entity returned by `em.findOne`: rewrite the first
row satisfying the filter, leave every other row as it was. -/
def updateFirst (p : Invoice → Bool) (f : Invoice → Invoice) : DB → DB
  | [] => []
  | inv :: rest => if p inv then f inv :: rest else inv :: updateFirst p f rest

/-- `findById`: `em.findOne(Invoice, { id, deletedAt: null })`. -/
def findById (id : String) (db : DB) : Option Invoice :=
  db.find? (aliveWithId id)

/-- `findByOrderId`: `em.findOne(Invoice, { orderId, deletedAt: null })`. -/
def findByOrderId (orderId : String) (db : DB) : Option Invoice :=
  db.find? (aliveWithOrderId orderId)

/-- `findWithLock`: the same filtered lookup, taken with a pessimistic write
lock (locking has no observable effect in this sequential embedding). -/
def findWithLock (id : String) (db : DB) : Option Invoice :=
  db.find? (aliveWithId id)

/-- `create`: inside a transaction, reject when a live row with the same
`orderId` exists, otherwise persist a fresh entity (status defaults to
`PENDING`, `paymentAttemptCount` to 0, `gateway` to midtrans). The
database-assigned primary key is passed in as `id`. -/
def create (orderId : String) (amount : Int) (id : String) (now : Nat) (db : DB) :
    Except ServiceError Invoice × DB :=
  if db.any (fun inv => inv.orderId == orderId && inv.deletedAt == none) then
    (.error .invoiceAlreadyExists, db)
  else
    let invoice : Invoice :=
      { id := id, orderId := orderId, amount := amount
        status := InvoiceStatus.PENDING
        paymentType := none, bank := none, vaNumber := none
        expiredAt := none, paidAt := none
        gateway := "midtrans", gatewayResponse := none
        createdAt := now, updatedAt := now, deletedAt := none
        paymentLink := none, paymentLinkCreatedAt := none
        paymentAttemptCount := 0 }
    (.ok invoice, db ++ [invoice])

/-- The entity mutation performed by `updateStatus` and
`updateStatusByOrderId`: set the status, copy the payment metadata when
present, and stamp `paidAt` when the new status is `PAID` and metadata is
present. -/
def applyStatusUpdate (status : InvoiceStatus) (paymentData : Option UpdateStatusData)
    (now : Nat) (inv : Invoice) : Invoice :=
  let base := { inv with status := status }
  match paymentData with
  | none => base
  | some d =>
    let withMeta := { base with
      paymentType := d.paymentType, bank := d.bank
      vaNumber := d.vaNumber, gatewayResponse := d.gatewayResponse }
    if status == InvoiceStatus.PAID then { withMeta with paidAt := some now }
    else withMeta

/-- `updateStatus`: find the live row by id (throwing when absent) and mutate
it in place. The runtime enum-membership guard on `status` is vacuous here
because `status` is already typed. -/
def updateStatus (id : String) (status : InvoiceStatus)
    (paymentData : Option UpdateStatusData) (now : Nat) (db : DB) :
    Except ServiceError Invoice × DB :=
  match db.find? (aliveWithId id) with
  | none => (.error .invoiceNotFound, db)
  | some invoice =>
    (.ok (applyStatusUpdate status paymentData now invoice),
     updateFirst (aliveWithId id) (applyStatusUpdate status paymentData now) db)

/-- `updateStatusByOrderId`: the same mutation keyed on `orderId`. -/
def updateStatusByOrderId (orderId : String) (status : InvoiceStatus)
    (paymentData : Option UpdateStatusData) (now : Nat) (db : DB) :
    Except ServiceError Invoice × DB :=
  match db.find? (aliveWithOrderId orderId) with
  | none => (.error .invoiceWithOrderIdNotFound, db)
  | some invoice =>
    (.ok (applyStatusUpdate status paymentData now invoice),
     updateFirst (aliveWithOrderId orderId) (applyStatusUpdate status paymentData now) db)

/-- `softDelete`: find the live row by id (throwing when absent) and stamp
`deletedAt`. -/
def softDelete (id : String) (now : Nat) (db : DB) :
    Except ServiceError Invoice × DB :=
  match db.find? (aliveWithId id) with
  | none => (.error .invoiceNotFound, db)
  | some invoice =>
    (.ok { invoice with deletedAt := some now },
     updateFirst (aliveWithId id) (fun inv => { inv with deletedAt := some now }) db)

/-- The `nativeUpdate` condition of `updateStatusAtomicFromPending`:
`{ orderId, status: PENDING, deletedAt: null }`. -/
def casMatches (orderId : String) (inv : Invoice) : Bool :=
  inv.orderId == orderId && inv.status == InvoiceStatus.PENDING
    && inv.deletedAt == none

/-- The update data built by `updateStatusAtomicFromPending`: the new status
and `updatedAt` always; the snake_case payment metadata, the stringified
payload, and (into `PAID`) `paidAt` when payment data is present. -/
def casApply (newStatus : InvoiceStatus) (paymentData : Option Notification)
    (now : Nat) (inv : Invoice) : Invoice :=
  let base := { inv with status := newStatus, updatedAt := now }
  match paymentData with
  | none => base
  | some d =>
    let withMeta := { base with
      paymentType := d.payment_type, bank := d.bank
      vaNumber := d.va_number, gatewayResponse := some d.raw }
    if newStatus == InvoiceStatus.PAID then { withMeta with paidAt := some now }
    else withMeta

/-- `updateStatusAtomicFromPending`: one `nativeUpdate` applying `casApply` to
every row matching `casMatches`, returning `SUCCESS` when the affected row
count is positive and `NOOP` otherwise. -/
def updateStatusAtomicFromPending (orderId : String) (newStatus : InvoiceStatus)
    (paymentData : Option Notification) (now : Nat) (db : DB) :
    CASResult × DB :=
  let affected := db.countP (casMatches orderId)
  (if affected > 0 then .SUCCESS else .NOOP,
   db.map (fun inv =>
     if casMatches orderId inv then casApply newStatus paymentData now inv else inv))

/-- `handleMidtransCallback`: validate the arguments, fetch the live row by
`orderId` under lock, map the vendor status through the inline switch, return
the invoice unchanged when its status already equals the mapped status,
otherwise overwrite status, `gatewayResponse`, and (into `PAID`) `paidAt`. -/
def handleMidtransCallback (orderId transactionStatus : String) (rawResponse : String)
    (now : Nat) (db : DB) : Except ServiceError Invoice × DB :=
  if orderId == "" || transactionStatus == "" then
    (.error .invalidCallbackData, db)
  else
    match db.find? (aliveWithOrderId orderId) with
    | none => (.error .invoiceNotFoundCallback, db)
    | some invoice =>
      let newStatusOpt : Option InvoiceStatus :=
        if transactionStatus == "settlement" || transactionStatus == "capture" then
          some InvoiceStatus.PAID
        else if transactionStatus == "pending" then
          some InvoiceStatus.PENDING
        else if transactionStatus == "expire" || transactionStatus == "cancel" then
          some InvoiceStatus.EXPIRED
        else if transactionStatus == "deny" || transactionStatus == "failure" then
          some InvoiceStatus.FAILED
        else
          none
      match newStatusOpt with
      | none => (.error .invalidTransactionStatus, db)
      | some newStatus =>
        if invoice.status == newStatus then
          (.ok invoice, db)
        else
          let f : Invoice → Invoice := fun inv =>
            let upd := { inv with status := newStatus, gatewayResponse := some rawResponse }
            if newStatus == InvoiceStatus.PAID then { upd with paidAt := some now }
            else upd
          (.ok (f invoice), updateFirst (aliveWithOrderId orderId) f db)

/-- Freshness of an existing link in phase 1 of `generatePaymentLink`:
both fields truthy and `Date.now() - createdAt` below the 30-minute window. -/
def hasActiveLink (now : Nat) (inv : Invoice) : Bool :=
  match inv.paymentLink, inv.paymentLinkCreatedAt with
  | some _, some t => now - t < 30 * 60 * 1000
  | _, _ => false

/-- The phase-1 mutation of `generatePaymentLink`: consume one attempt and
stamp the provisional timestamp. -/
def markLinkInProgress (now : Nat) (inv : Invoice) : Invoice :=
  { inv with
    paymentAttemptCount := inv.paymentAttemptCount + 1
    paymentLinkCreatedAt := some now }

/-- `generatePaymentLink` (identical in the legacy and SOLID services).
Phase 1 (transactional): fetch the live row by id, fail fast on not-found,
`PAID`, `EXPIRED`, an exhausted attempt budget, or a still-fresh link;
otherwise increment `paymentAttemptCount`, stamp `paymentLinkCreatedAt`, and
commit. Phase 2: the external Midtrans call, whose outcome is the `ext`
argument (`.ok url` or `.error msg`). Phase 3a (success): re-fetch and persist
the link URL. Phase 3b (failure, also covering a failed phase-3a re-fetch):
re-fetch and clear the provisional timestamp, keep the incremented counter,
and re-raise the original error. -/
def generatePaymentLink (id : String) (ext : Except String String) (now : Nat)
    (db : DB) : Except ServiceError Invoice × DB :=
  match db.find? (aliveWithId id) with
  | none => (.error .invoiceNotFound, db)
  | some invoice =>
    if invoice.status == InvoiceStatus.PAID then
      (.error .invoiceAlreadyPaid, db)
    else if invoice.status == InvoiceStatus.EXPIRED then
      (.error .invoiceExpired, db)
    else if invoice.paymentAttemptCount >= 3 then
      (.error .maxPaymentAttemptsReached, db)
    else if hasActiveLink now invoice then
      (.error .activePaymentLinkExists, db)
    else
      let db1 := updateFirst (aliveWithId id) (markLinkInProgress now) db
      match ext with
      | .error e =>
        let db2 := updateFirst (aliveWithId id)
          (fun inv => { inv with paymentLinkCreatedAt := none }) db1
        (.error (.midtransApiError e), db2)
      | .ok url =>
        match db1.find? (aliveWithId id) with
        | none =>
          let db2 := updateFirst (aliveWithId id)
            (fun inv => { inv with paymentLinkCreatedAt := none }) db1
          (.error .invoiceNotFound, db2)
        | some updatedInvoice =>
          (.ok { updatedInvoice with paymentLink := some url },
           updateFirst (aliveWithId id)
             (fun inv => { inv with paymentLink := some url }) db1)

/-- Branches of the legacy `midtransRoute.post(notification)` handler (the
version without an FSM guard, whose `NOOP` branch throws). -/
inductive LegacyWebhookResp
  | badRequestValidation (e : WebhookValidationError)
  | unauthorized
  | duplicateAlreadyProcessed
  | invoiceNotFound
  | badRequestBusinessRule (e : PaymentRuleError)
  | internalError
  | success
deriving DecidableEq, Repr

/-- HTTP status code sent by each branch of the legacy handler. The two
thrown paths (unknown transaction status, and the `NOOP` branch throwing
`Invoice not in PENDING state`) both land in the catch-all 500 response. -/
def legacyRespCode : LegacyWebhookResp → Nat
  | .badRequestValidation _ => 400
  | .unauthorized => 401
  | .duplicateAlreadyProcessed => 200
  | .invoiceNotFound => 404
  | .badRequestBusinessRule _ => 400
  | .internalError => 500
  | .success => 200

/-- The legacy `midtransRoute.post(notification)` handler: schema validation,
production-only signature verification, the in-memory idempotency cache,
invoice lookup, business rules, vendor-status mapping (throwing on an unknown
status), then the atomic CAS. A `NOOP` result throws
`Invoice not in PENDING state`, which the catch block turns into the generic
500 response; only `SUCCESS` records the idempotency key. -/
def midtransNotificationLegacy (env : JsEnv) (sig : String) (n : Notification)
    (processed : List String) (db : DB) (now : Nat) :
    LegacyWebhookResp × DB × List String :=
  match validateWebhookRequest n with
  | some e => (.badRequestValidation e, db, processed)
  | none =>
    if env.isProduction && !verifySignature env n sig then
      (.unauthorized, db, processed)
    else
      let notificationId :=
        n.order_id ++ "_" ++ n.transaction_id ++ "_" ++ n.transaction_status
      if processed.contains notificationId then
        (.duplicateAlreadyProcessed, db, processed)
      else
        match db.find? (aliveWithOrderId n.order_id) with
        | none => (.invoiceNotFound, db, processed)
        | some invoice =>
          match validatePaymentRules env invoice n with
          | some e => (.badRequestBusinessRule e, db, processed)
          | none =>
            match mapMidtransStatusToInvoice n.transaction_status with
            | none => (.internalError, db, processed)
            | some newStatus =>
              let r := updateStatusAtomicFromPending n.order_id newStatus (some n) now db
              match r.1 with
              | .NOOP => (.internalError, r.2, processed)
              | .SUCCESS => (.success, r.2, notificationId :: processed)

/-- Branches of the current `midtrans.route.ts` notification handler (the
version with the FSM guard and the 200 `NOOP` response). -/
inductive WebhookResp
  | badRequestValidation (e : WebhookValidationError)
  | unauthorized
  | duplicateAlreadyProcessed
  | invoiceNotFound
  | badRequestBusinessRule (e : PaymentRuleError)
  | internalError
  | transitionNotAllowed
  | statusAlreadySet
  | atomicNoop
  | success
deriving DecidableEq, Repr

/-- HTTP status code sent by each branch of the current handler. -/
def webhookRespCode : WebhookResp → Nat
  | .badRequestValidation _ => 400
  | .unauthorized => 401
  | .duplicateAlreadyProcessed => 200
  | .invoiceNotFound => 404
  | .badRequestBusinessRule _ => 400
  | .internalError => 500
  | .transitionNotAllowed => 200
  | .statusAlreadySet => 200
  | .atomicNoop => 200
  | .success => 200

/-- The current `midtrans.route.ts` notification handler: schema validation,
production-only signature verification, the in-memory idempotency cache,
invoice lookup, business rules, vendor-status mapping (throwing on an unknown
status), the FSM guard, the status-equality idempotency check, then the
atomic CAS with a 200 success response on `NOOP`. -/
def midtransNotification (env : JsEnv) (sig : String) (n : Notification)
    (processed : List String) (db : DB) (now : Nat) :
    WebhookResp × DB × List String :=
  match validateWebhookRequest n with
  | some e => (.badRequestValidation e, db, processed)
  | none =>
    if env.isProduction && !verifySignature env n sig then
      (.unauthorized, db, processed)
    else
      let notificationId :=
        n.order_id ++ "_" ++ n.transaction_id ++ "_" ++ n.transaction_status
      if processed.contains notificationId then
        (.duplicateAlreadyProcessed, db, processed)
      else
        match db.find? (aliveWithOrderId n.order_id) with
        | none => (.invoiceNotFound, db, processed)
        | some invoice =>
          match validatePaymentRules env invoice n with
          | some e => (.badRequestBusinessRule e, db, processed)
          | none =>
            match mapMidtransStatusToInvoice n.transaction_status with
            | none => (.internalError, db, processed)
            | some newStatus =>
              if !isValidStatusTransition invoice.status newStatus then
                (.transitionNotAllowed, db, processed)
              else if invoice.status == newStatus then
                (.statusAlreadySet, db, processed)
              else
                let r := updateStatusAtomicFromPending n.order_id newStatus (some n) now db
                match r.1 with
                | .NOOP => (.atomicNoop, r.2, processed)
                | .SUCCESS => (.success, r.2, notificationId :: processed)

/-- Branches of the `callbackRoute.post(notification)` handler. Every branch
answers HTTP 200 with a received acknowledgement. -/
inductive CallbackResp
  | invalidSignature
  | invoiceNotFound
  | unknownTransactionStatus
  | invalidStatusTransition
  | statusAlreadySet
  | atomicNoop
  | success
deriving DecidableEq, Repr

/-- HTTP status code sent by each branch of the callback handler. -/
def callbackRespCode : CallbackResp → Nat
  | _ => 200

/-- The `callbackRoute.post(notification)` handler: always-on signature
verification (its local variant), invoice lookup, vendor-status mapping, the
FSM guard (its local variant), the status-equality idempotency check, then
the atomic CAS. It performs no schema validation beyond the signature fields
and no amount check, and answers 200 on every branch. -/
def callbackNotification (env : JsEnv) (n : Notification) (db : DB) (now : Nat) :
    CallbackResp × DB :=
  if !verifySignatureCallback env n then
    (.invalidSignature, db)
  else
    match db.find? (aliveWithOrderId n.order_id) with
    | none => (.invoiceNotFound, db)
    | some invoice =>
      match mapMidtransStatusToInvoice n.transaction_status with
      | none => (.unknownTransactionStatus, db)
      | some newStatus =>
        if !isValidStatusTransitionCallback invoice.status newStatus then
          (.invalidStatusTransition, db)
        else if invoice.status == newStatus then
          (.statusAlreadySet, db)
        else
          let r := updateStatusAtomicFromPending n.order_id newStatus (some n) now db
          match r.1 with
          | .NOOP => (.atomicNoop, r.2)
          | .SUCCESS => (.success, r.2)

/-- Branches of the `invoiceRoute.post(v1/payment-links)` handler. -/
inductive PaymentLinksResp
  | badRequest
  | generationInProgress
  | paymentNotFound
  | alreadyPaid
  | expired
  | maxAttemptsReached
  | freshLink (url : String)
  | generated (url : Option String)
  | internalError
deriving DecidableEq, Repr

/-- HTTP status code sent by each branch of the payment-links handler. -/
def paymentLinksRespCode : PaymentLinksResp → Nat
  | .badRequest => 400
  | .generationInProgress => 429
  | .paymentNotFound => 404
  | .alreadyPaid => 409
  | .expired => 409
  | .maxAttemptsReached => 409
  | .freshLink _ => 200
  | .generated _ => 200
  | .internalError => 500

/-- The `invoiceRoute.post(v1/payment-links)` handler: zod-validate
`order_id`, take the in-process lock, look the payment up by `order_id`, fail
on `PAID`, `EXPIRED`, or an exhausted attempt budget, answer 200 with the
existing `payment_url` while the link is under 30 minutes old, and otherwise
delegate to `generatePaymentLink` (service errors land in the catch-all 500).
The in-process lock set is passed in; the handler removes its own key again
in `finally`, so the set is returned unchanged. -/
def paymentLinksRoute (order_id : String) (processing : List String)
    (ext : Except String String) (now : Nat) (db : DB) :
    PaymentLinksResp × DB :=
  if order_id == "" then
    (.badRequest, db)
  else if processing.contains ("payment_link_" ++ order_id) then
    (.generationInProgress, db)
  else
    match db.find? (aliveWithOrderId order_id) with
    | none => (.paymentNotFound, db)
    | some payment =>
      if payment.status == InvoiceStatus.PAID then
        (.alreadyPaid, db)
      else if payment.status == InvoiceStatus.EXPIRED then
        (.expired, db)
      else if payment.paymentAttemptCount >= 3 then
        (.maxAttemptsReached, db)
      else
        match payment.paymentLink, payment.paymentLinkCreatedAt with
        | some url, some t =>
          if now - t < 30 * 60 * 1000 then
            (.freshLink url, db)
          else
            let g := generatePaymentLink payment.id ext now db
            match g.1 with
            | .ok updatedPayment => (.generated updatedPayment.paymentLink, g.2)
            | .error _ => (.internalError, g.2)
        | _, _ =>
          let g := generatePaymentLink payment.id ext now db
          match g.1 with
          | .ok updatedPayment => (.generated updatedPayment.paymentLink, g.2)
          | .error _ => (.internalError, g.2)

/-- One invoice-mutating operation of the service/repository layer, for
stating invariants over arbitrary operation sequences. -/
inductive AppOp
  | opCreate (orderId : String) (amount : Int) (id : String) (now : Nat)
  | opGeneratePaymentLink (id : String) (ext : Except String String) (now : Nat)
  | opUpdateStatus (id : String) (status : InvoiceStatus)
      (pd : Option UpdateStatusData) (now : Nat)
  | opUpdateStatusByOrderId (orderId : String) (status : InvoiceStatus)
      (pd : Option UpdateStatusData) (now : Nat)
  | opCAS (orderId : String) (newStatus : InvoiceStatus)
      (pd : Option Notification) (now : Nat)
  | opSoftDelete (id : String) (now : Nat)
  | opHandleCallback (orderId transactionStatus rawResponse : String) (now : Nat)

/-- The database state after one operation. -/
def applyOp (db : DB) : AppOp → DB
  | .opCreate orderId amount id now => (create orderId amount id now db).2
  | .opGeneratePaymentLink id ext now => (generatePaymentLink id ext now db).2
  | .opUpdateStatus id status pd now => (updateStatus id status pd now db).2
  | .opUpdateStatusByOrderId orderId status pd now =>
      (updateStatusByOrderId orderId status pd now db).2
  | .opCAS orderId newStatus pd now =>
      (updateStatusAtomicFromPending orderId newStatus pd now db).2
  | .opSoftDelete id now => (softDelete id now db).2
  | .opHandleCallback orderId ts raw now => (handleMidtransCallback orderId ts raw now db).2

/-- The database state after a sequence of operations. -/
def runOps (db : DB) (ops : List AppOp) : DB :=
  ops.foldl applyOp db

/-- One inbound webhook delivery, through any of the three notification
handlers. -/
inductive WebhookEvent
  | legacy (env : JsEnv) (sig : String) (n : Notification) (now : Nat)
  | current (env : JsEnv) (sig : String) (n : Notification) (now : Nat)
  | callback (env : JsEnv) (n : Notification) (now : Nat)

/-- Handler-visible state: the invoices table plus the two process-local
idempotency caches. -/
structure WebhookState where
  db : DB
  processedLegacy : List String
  processedCurrent : List String

/-- Deliver one webhook through its handler. -/
def stepWebhook (s : WebhookState) : WebhookEvent → WebhookState
  | .legacy env sig n now =>
    let r := midtransNotificationLegacy env sig n s.processedLegacy s.db now
    { s with db := r.2.1, processedLegacy := r.2.2 }
  | .current env sig n now =>
    let r := midtransNotification env sig n s.processedCurrent s.db now
    { s with db := r.2.1, processedCurrent := r.2.2 }
  | .callback env n now =>
    let r := callbackNotification env n s.db now
    { s with db := r.2 }

/-- Deliver a sequence of webhooks. -/
def runWebhooks (s : WebhookState) (es : List WebhookEvent) : WebhookState :=
  es.foldl stepWebhook s

/-! Concrete fixtures used to instantiate the theorems below. -/

/-- A well-formed settlement notification for order ORD-1 over amount 100000. -/
def sampleNotification : Notification :=
  { order_id := "ORD-1", transaction_id := "T1", transaction_status := "settlement"
    payment_type := some "bank_transfer", bank := some "bca", va_number := some "123"
    status_code := "200", gross_amount := "100000", signature_key := "SIG"
    raw := "RAW" }

/-- The same delivery with a gross amount of 90000 against the 100000
invoice. -/
def mismatchNotification : Notification :=
  { sampleNotification with gross_amount := "90000" }

/-- A live `PENDING` invoice for ORD-1 over 100000, zero attempts. -/
def samplePending : Invoice :=
  { id := "1", orderId := "ORD-1", amount := 100000
    status := InvoiceStatus.PENDING
    paymentType := none, bank := none, vaNumber := none, expiredAt := none
    paidAt := none, gateway := "midtrans", gatewayResponse := none
    createdAt := 0, updatedAt := 0, deletedAt := none
    paymentLink := none, paymentLinkCreatedAt := none, paymentAttemptCount := 0 }

/-- The same invoice already `FAILED`. -/
def sampleFailed : Invoice :=
  { samplePending with status := InvoiceStatus.FAILED }

/-- The same invoice already `PAID`. -/
def samplePaid : Invoice :=
  { samplePending with status := InvoiceStatus.PAID }

/-- A `PAID` invoice whose attempt budget is also exhausted. -/
def samplePaidBudget : Invoice :=
  { samplePending with status := InvoiceStatus.PAID, paymentAttemptCount := 3 }

/-- A `PENDING` invoice with an exhausted budget and a fresh link from t=5. -/
def samplePendingBudgetFresh : Invoice :=
  { samplePending with
    paymentAttemptCount := 3, paymentLink := some "L"
    paymentLinkCreatedAt := some 5 }

/-- A `PENDING` invoice with budget left and a fresh link from t=5. -/
def samplePendingFresh : Invoice :=
  { samplePending with
    paymentAttemptCount := 1, paymentLink := some "L"
    paymentLinkCreatedAt := some 5 }

/-- A soft-deleted invoice (deleted at t=3). -/
def sampleDeleted : Invoice :=
  { samplePending with deletedAt := some 3 }

/-- A sandbox environment: production off, a hash that returns SIG on every
input, and a numeric coercion recognising the decimal 100000. -/
def sandboxEnv : JsEnv :=
  { isProduction := false, serverKey := "KEY"
    sha512hex := fun _ => "SIG"
    jsNumber := fun s => if s == "100000" then some 100000 else none }

/-- A production environment with an injective toy digest. -/
def prodEnv : JsEnv :=
  { sandboxEnv with isProduction := true, sha512hex := fun s => "H" ++ s }

/-! General helper lemmas about the embedding primitives. -/

/-- Pairs of a list zipped with a mapped copy of itself relate by the map. -/
theorem mem_zip_map_self {α : Type} {f : α → α} :
    ∀ {l : List α} {a b : α}, (a, b) ∈ l.zip (l.map f) → b = f a := by
  intro l
  induction l with
  | nil => intro a b h; simp [List.zip] at h
  | cons x xs ih =>
    intro a b h
    rcases List.mem_cons.mp h with h1 | h1
    · cases h1; rfl
    · exact ih h1

/-- Pairs of a list zipped with itself are equal. -/
theorem mem_zip_self {α : Type} :
    ∀ {l : List α} {a b : α}, (a, b) ∈ l.zip l → b = a := by
  intro l
  induction l with
  | nil => intro a b h; simp [List.zip] at h
  | cons x xs ih =>
    intro a b h
    rcases List.mem_cons.mp h with h1 | h1
    · cases h1; rfl
    · exact ih h1

/-- Pairs of a list zipped with itself extended on the right are equal. -/
theorem mem_zip_append_self {α : Type} {ys : List α} :
    ∀ {l : List α} {a b : α}, (a, b) ∈ l.zip (l ++ ys) → b = a := by
  intro l
  induction l with
  | nil => intro a b h; simp [List.zip] at h
  | cons x xs ih =>
    intro a b h
    rcases List.mem_cons.mp h with h1 | h1
    · cases h1; rfl
    · exact ih h1

/-- `updateFirst` preserves length. -/
theorem updateFirst_length (p : Invoice → Bool) (f : Invoice → Invoice) :
    ∀ l : DB, (updateFirst p f l).length = l.length := by
  intro l
  induction l with
  | nil => rfl
  | cons x xs ih =>
    by_cases hx : p x = true
    · simp [updateFirst, hx]
    · simp [updateFirst, hx, ih]

/-- `updateFirst` is the identity when no row satisfies the filter. -/
theorem updateFirst_of_find?_none (p : Invoice → Bool) (f : Invoice → Invoice) :
    ∀ l : DB, l.find? p = none → updateFirst p f l = l := by
  intro l
  induction l with
  | nil => intro _; rfl
  | cons x xs ih =>
    intro h
    rw [List.find?_cons] at h
    by_cases hx : p x = true
    · simp [hx] at h
    · simp [updateFirst, hx]
      exact ih (by simpa [hx] using h)

/-- When the mutation preserves the filter, refetching after `updateFirst`
returns the mutated row. -/
theorem find?_updateFirst (p : Invoice → Bool) (f : Invoice → Invoice)
    (hp : ∀ a, p a = true → p (f a) = true) :
    ∀ l : DB, (updateFirst p f l).find? p = (l.find? p).map f := by
  intro l
  induction l with
  | nil => rfl
  | cons x xs ih =>
    by_cases hx : p x = true
    · simp [updateFirst, hx, List.find?_cons, hp x hx]
    · simp [updateFirst, hx, List.find?_cons, ih]

/-- A row failing the filter passes through `updateFirst` unchanged. -/
theorem mem_zip_updateFirst_of_not_p (p : Invoice → Bool) (f : Invoice → Invoice) :
    ∀ {l : DB} {a b : Invoice},
      (a, b) ∈ l.zip (updateFirst p f l) → p a = false → b = a := by
  intro l
  induction l with
  | nil => intro a b h _; simp [List.zip] at h
  | cons x xs ih =>
    intro a b h ha
    by_cases hx : p x = true
    · simp only [updateFirst, hx, if_pos] at h
      rcases List.mem_cons.mp h with h1 | h1
      · cases h1; rw [hx] at ha; cases ha
      · exact mem_zip_self h1
    · simp only [updateFirst, hx] at h
      rcases List.mem_cons.mp h with h1 | h1
      · cases h1; rfl
      · exact ih h1 ha

/-- The boolean CAS condition, in propositional form. -/
theorem casMatches_iff (orderId : String) (inv : Invoice) :
    casMatches orderId inv = true ↔
      inv.orderId = orderId ∧ inv.status = InvoiceStatus.PENDING ∧
        inv.deletedAt = none := by
  simp [casMatches, and_assoc]

/-- The CAS returns its input database unchanged on `NOOP`. -/
theorem cas_noop_db (orderId : String) (newStatus : InvoiceStatus)
    (pd : Option Notification) (now : Nat) (db : DB) :
    (updateStatusAtomicFromPending orderId newStatus pd now db).1 = CASResult.NOOP →
    (updateStatusAtomicFromPending orderId newStatus pd now db).2 = db := by
  intro h
  unfold updateStatusAtomicFromPending at h ⊢
  simp only at h ⊢
  by_cases hc : 0 < db.countP (casMatches orderId)
  · simp [hc] at h
  · have hall : ∀ inv ∈ db, ¬ casMatches orderId inv = true := by
      intro inv hm hmatch
      exact hc (List.countP_pos_iff.mpr ⟨inv, hm, hmatch⟩)
    have : db.map (fun inv =>
        if casMatches orderId inv then casApply newStatus pd now inv else inv) = db := by
      conv_rhs => rw [← List.map_id db]
      refine List.map_congr_left ?_
      intro a ha
      simp [hall a ha]
    simpa using this

/-- The CAS result is `SUCCESS` exactly when some row matches the condition. -/
theorem cas_success_iff (orderId : String) (newStatus : InvoiceStatus)
    (pd : Option Notification) (now : Nat) (db : DB) :
    (updateStatusAtomicFromPending orderId newStatus pd now db).1 = CASResult.SUCCESS ↔
      ∃ inv ∈ db, casMatches orderId inv = true := by
  unfold updateStatusAtomicFromPending
  simp only
  by_cases hc : 0 < db.countP (casMatches orderId)
  · simp [hc, List.countP_pos_iff.mp hc]
  · simp only [hc, if_neg, if_false]
    constructor
    · intro h; cases h
    · intro ⟨inv, hm, hmatch⟩
      exact absurd (List.countP_pos_iff.mpr ⟨inv, hm, hmatch⟩) hc

end PaymentGateway

namespace PaymentGateway

/-- C1: the atomic conditional update `updateStatusAtomicFromPending` modifies
an invoice row only where a non-deleted row matches the `orderId` and its
persisted status is still exactly `PENDING`; on a match it sets the status,
the payment-metadata fields, and, when transitioning into `PAID`, `paidAt`,
and it returns `SUCCESS`; when no row matches it returns `NOOP` and no row is
modified. -/
theorem updateStatusAtomicFromPending_conditional_update (orderId : String)
    (newStatus : InvoiceStatus) (pd : Notification) (now : Nat) (db : DB) :
    (updateStatusAtomicFromPending orderId newStatus (some pd) now db).2.length
        = db.length ∧
    (∀ pr ∈ db.zip (updateStatusAtomicFromPending orderId newStatus (some pd) now db).2,
      (¬(pr.1.orderId = orderId ∧ pr.1.status = InvoiceStatus.PENDING ∧
          pr.1.deletedAt = none) → pr.2 = pr.1) ∧
      (pr.1.orderId = orderId ∧ pr.1.status = InvoiceStatus.PENDING ∧
          pr.1.deletedAt = none →
        pr.2.status = newStatus ∧
        pr.2.paymentType = pd.payment_type ∧
        pr.2.bank = pd.bank ∧
        pr.2.vaNumber = pd.va_number ∧
        pr.2.gatewayResponse = some pd.raw ∧
        (newStatus = InvoiceStatus.PAID → pr.2.paidAt = some now) ∧
        (newStatus ≠ InvoiceStatus.PAID → pr.2.paidAt = pr.1.paidAt))) ∧
    ((updateStatusAtomicFromPending orderId newStatus (some pd) now db).1
        = CASResult.SUCCESS ↔
      ∃ inv ∈ db, inv.orderId = orderId ∧ inv.status = InvoiceStatus.PENDING ∧
        inv.deletedAt = none) ∧
    ((updateStatusAtomicFromPending orderId newStatus (some pd) now db).1
        = CASResult.NOOP →
      (updateStatusAtomicFromPending orderId newStatus (some pd) now db).2 = db) := by
  refine ⟨?_, ?_, ?_, cas_noop_db orderId newStatus (some pd) now db⟩
  · simp [updateStatusAtomicFromPending]
  · rintro ⟨a, b⟩ hpr
    have hmap : (updateStatusAtomicFromPending orderId newStatus (some pd) now db).2 =
        db.map (fun inv => if casMatches orderId inv then
          casApply newStatus (some pd) now inv else inv) := rfl
    rw [hmap] at hpr
    have hb : b = if casMatches orderId a then casApply newStatus (some pd) now a
        else a :=
      @mem_zip_map_self Invoice (fun inv => if casMatches orderId inv then
        casApply newStatus (some pd) now inv else inv) db a b hpr
    constructor
    · intro hn
      rw [hb, if_neg]
      intro hc
      exact hn ((casMatches_iff orderId a).mp hc)
    · intro hm
      have hc : casMatches orderId a = true := (casMatches_iff orderId a).mpr hm
      rw [hb, if_pos hc]
      by_cases hps : newStatus = InvoiceStatus.PAID
      · subst hps
        simp [casApply]
      · simp [casApply, hps]
  · rw [cas_success_iff]
    simp only [casMatches_iff]

/-- Witness for C1 at a concrete pending invoice: the conditional update
reports `SUCCESS`. -/
theorem updateStatusAtomicFromPending_conditional_update_witness :
    (updateStatusAtomicFromPending "ORD-1" InvoiceStatus.PAID
      (some sampleNotification) 5 [samplePending]).1 = CASResult.SUCCESS :=
  (updateStatusAtomicFromPending_conditional_update "ORD-1" InvoiceStatus.PAID
    sampleNotification 5 [samplePending]).2.2.1.mpr
    ⟨samplePending, by decide, by decide, by decide, by decide⟩

end PaymentGateway

namespace PaymentGateway

/-- C5 counterexample: both copies of `isValidStatusTransition` accept the
transition `PENDING` to `PENDING`, which the claim says must be rejected. -/
theorem isValidStatusTransition_pending_to_pending :
    isValidStatusTransition InvoiceStatus.PENDING InvoiceStatus.PENDING = true ∧
    isValidStatusTransitionCallback InvoiceStatus.PENDING InvoiceStatus.PENDING
      = true := by
  exact ⟨rfl, rfl⟩

/-- C5 (amended): `isValidStatusTransition` (and the callback-route copy)
returns true exactly when the current status is `PENDING`, ignoring the new
status entirely; in particular it returns false for every terminal current
status, but it returns true for `PENDING` to `PENDING`. -/
theorem isValidStatusTransition_characterization
    (current next : InvoiceStatus) :
    isValidStatusTransition current next = (current == InvoiceStatus.PENDING) ∧
    isValidStatusTransitionCallback current next
      = (current == InvoiceStatus.PENDING) := by
  cases current <;> exact ⟨rfl, rfl⟩

end PaymentGateway

namespace PaymentGateway

/-- C8: `verifySignature` returns true unconditionally when production
enforcement is off; with enforcement on it returns true exactly when the
SHA-512 hex digest of `orderId ++ statusCode ++ grossAmount ++ sharedSecret`
equals the presented signature, so any mismatch fails verification. -/
theorem verifySignature_characterization (env : JsEnv) (n : Notification)
    (sig : String) :
    (env.isProduction = false → verifySignature env n sig = true) ∧
    (env.isProduction = true →
      (verifySignature env n sig = true ↔
        env.sha512hex (n.order_id ++ n.status_code ++ n.gross_amount
          ++ env.serverKey) = sig)) := by
  constructor
  · intro h
    simp [verifySignature, h]
  · intro h
    simp [verifySignature, h]

/-- Witness for C8: the sandbox environment accepts an arbitrary signature,
and the production environment accepts exactly the recomputed digest. -/
theorem verifySignature_characterization_witness :
    verifySignature sandboxEnv sampleNotification "anything" = true ∧
    verifySignature prodEnv sampleNotification
      (prodEnv.sha512hex ("ORD-1" ++ "200" ++ "100000" ++ "KEY")) = true := by
  constructor
  · exact (verifySignature_characterization sandboxEnv sampleNotification
      "anything").1 rfl
  · exact ((verifySignature_characterization prodEnv sampleNotification
      (prodEnv.sha512hex ("ORD-1" ++ "200" ++ "100000" ++ "KEY"))).2 rfl).mpr rfl

end PaymentGateway

namespace PaymentGateway

/-- C2 counterexample: `handleMidtransCallback` overwrites a terminal status:
on a `PAID` invoice, a deny notification moves the status to `FAILED`. -/
theorem handleMidtransCallback_breaks_monotonicity :
    samplePaid.status = InvoiceStatus.PAID ∧
    (handleMidtransCallback "ORD-1" "deny" "RAW" 7 [samplePaid]).2 =
      [{ samplePaid with
          status := InvoiceStatus.FAILED
          gatewayResponse := some "RAW" }] := by
  exact ⟨rfl, rfl⟩

/-- The legacy webhook handler leaves the database unchanged or hands it to
the atomic CAS. -/
theorem midtransNotificationLegacy_db_cases (env : JsEnv) (sig : String)
    (n : Notification) (proc : List String) (db : DB) (now : Nat) :
    (midtransNotificationLegacy env sig n proc db now).2.1 = db ∨
    ∃ ns, (midtransNotificationLegacy env sig n proc db now).2.1 =
      (updateStatusAtomicFromPending n.order_id ns (some n) now db).2 := by
  unfold midtransNotificationLegacy
  repeat first
  | exact Or.inl rfl
  | exact Or.inr ⟨_, rfl⟩
  | split
  | dsimp only
/-- The current webhook handler leaves the database unchanged or hands it to
the atomic CAS. -/
theorem midtransNotification_db_cases (env : JsEnv) (sig : String)
    (n : Notification) (proc : List String) (db : DB) (now : Nat) :
    (midtransNotification env sig n proc db now).2.1 = db ∨
    ∃ ns, (midtransNotification env sig n proc db now).2.1 =
      (updateStatusAtomicFromPending n.order_id ns (some n) now db).2 := by
  unfold midtransNotification
  repeat first
  | exact Or.inl rfl
  | exact Or.inr ⟨_, rfl⟩
  | split
  | dsimp only

/-- The callback handler leaves the database unchanged or hands it to the
atomic CAS. -/
theorem callbackNotification_db_cases (env : JsEnv) (n : Notification)
    (db : DB) (now : Nat) :
    (callbackNotification env n db now).2 = db ∨
    ∃ ns, (callbackNotification env n db now).2 =
      (updateStatusAtomicFromPending n.order_id ns (some n) now db).2 := by
  unfold callbackNotification
  repeat first
  | exact Or.inl rfl
  | exact Or.inr ⟨_, rfl⟩
  | split
  | dsimp only
end PaymentGateway

namespace PaymentGateway

/-- The CAS preserves the rowcount. -/
theorem cas_length (orderId : String) (newStatus : InvoiceStatus)
    (pd : Option Notification) (now : Nat) (db : DB) :
    (updateStatusAtomicFromPending orderId newStatus pd now db).2.length
      = db.length := by
  simp [updateStatusAtomicFromPending]

/-- The CAS leaves every row that is not `PENDING` untouched. -/
theorem cas_get_preserves_terminal (orderId : String) (newStatus : InvoiceStatus)
    (pd : Option Notification) (now : Nat) (db : DB) (i : Nat)
    (h1 : i < db.length)
    (h2 : i < (updateStatusAtomicFromPending orderId newStatus pd now db).2.length)
    (hs : (db.get ⟨i, h1⟩).status ≠ InvoiceStatus.PENDING) :
    (updateStatusAtomicFromPending orderId newStatus pd now db).2.get ⟨i, h2⟩
      = db.get ⟨i, h1⟩ := by
  have hmap : (updateStatusAtomicFromPending orderId newStatus pd now db).2 =
      db.map (fun inv => if casMatches orderId inv then
        casApply newStatus pd now inv else inv) := rfl
  have h2' : i < (db.map (fun inv => if casMatches orderId inv then
      casApply newStatus pd now inv else inv)).length := by
    rw [← hmap]; exact h2
  have hget : (updateStatusAtomicFromPending orderId newStatus pd now db).2.get ⟨i, h2⟩
      = (db.map (fun inv => if casMatches orderId inv then
          casApply newStatus pd now inv else inv)).get ⟨i, h2'⟩ := by
    congr 1
  rw [hget]
  simp only [List.get_eq_getElem, List.getElem_map]
  rw [if_neg]
  intro hc
  exact hs ((casMatches_iff orderId (db.get ⟨i, h1⟩)).mp hc).2.1

/-- One webhook delivery preserves the rowcount. -/
theorem stepWebhook_db_length (s : WebhookState) (e : WebhookEvent) :
    (stepWebhook s e).db.length = s.db.length := by
  cases e with
  | legacy env sig n now =>
    rcases midtransNotificationLegacy_db_cases env sig n s.processedLegacy s.db now with
      h | ⟨ns, h⟩
    · show (midtransNotificationLegacy env sig n s.processedLegacy s.db now).2.1.length = _
      rw [h]
    · show (midtransNotificationLegacy env sig n s.processedLegacy s.db now).2.1.length = _
      rw [h]; exact cas_length n.order_id ns (some n) now s.db
  | current env sig n now =>
    rcases midtransNotification_db_cases env sig n s.processedCurrent s.db now with
      h | ⟨ns, h⟩
    · show (midtransNotification env sig n s.processedCurrent s.db now).2.1.length = _
      rw [h]
    · show (midtransNotification env sig n s.processedCurrent s.db now).2.1.length = _
      rw [h]; exact cas_length n.order_id ns (some n) now s.db
  | callback env n now =>
    rcases callbackNotification_db_cases env n s.db now with h | ⟨ns, h⟩
    · show (callbackNotification env n s.db now).2.length = _
      rw [h]
    · show (callbackNotification env n s.db now).2.length = _
      rw [h]; exact cas_length n.order_id ns (some n) now s.db

/-- One webhook delivery leaves every non-`PENDING` row untouched. -/
theorem stepWebhook_preserves_terminal (s : WebhookState) (e : WebhookEvent)
    (i : Nat) (h1 : i < s.db.length) (h2 : i < (stepWebhook s e).db.length)
    (hs : (s.db.get ⟨i, h1⟩).status ≠ InvoiceStatus.PENDING) :
    (stepWebhook s e).db.get ⟨i, h2⟩ = s.db.get ⟨i, h1⟩ := by
  cases e with
  | legacy env sig n now =>
    rcases midtransNotificationLegacy_db_cases env sig n s.processedLegacy s.db now with
      h | ⟨ns, h⟩
    all_goals
      have hd : (stepWebhook s (WebhookEvent.legacy env sig n now)).db =
          (midtransNotificationLegacy env sig n s.processedLegacy s.db now).2.1 := rfl
    · have : (stepWebhook s (WebhookEvent.legacy env sig n now)).db = s.db := by
        rw [hd, h]
      exact (List.get_of_eq this ⟨i, h2⟩).trans (by congr 1)
    · have heq : (stepWebhook s (WebhookEvent.legacy env sig n now)).db =
          (updateStatusAtomicFromPending n.order_id ns (some n) now s.db).2 := by
        rw [hd, h]
      have h2' : i < (updateStatusAtomicFromPending n.order_id ns (some n) now s.db).2.length := by
        rw [← heq]; exact h2
      rw [List.get_of_eq heq ⟨i, h2⟩]
      exact cas_get_preserves_terminal n.order_id ns (some n) now s.db i h1 h2' hs
  | current env sig n now =>
    rcases midtransNotification_db_cases env sig n s.processedCurrent s.db now with
      h | ⟨ns, h⟩
    all_goals
      have hd : (stepWebhook s (WebhookEvent.current env sig n now)).db =
          (midtransNotification env sig n s.processedCurrent s.db now).2.1 := rfl
    · have : (stepWebhook s (WebhookEvent.current env sig n now)).db = s.db := by
        rw [hd, h]
      exact (List.get_of_eq this ⟨i, h2⟩).trans (by congr 1)
    · have heq : (stepWebhook s (WebhookEvent.current env sig n now)).db =
          (updateStatusAtomicFromPending n.order_id ns (some n) now s.db).2 := by
        rw [hd, h]
      have h2' : i < (updateStatusAtomicFromPending n.order_id ns (some n) now s.db).2.length := by
        rw [← heq]; exact h2
      rw [List.get_of_eq heq ⟨i, h2⟩]
      exact cas_get_preserves_terminal n.order_id ns (some n) now s.db i h1 h2' hs
  | callback env n now =>
    rcases callbackNotification_db_cases env n s.db now with h | ⟨ns, h⟩
    all_goals
      have hd : (stepWebhook s (WebhookEvent.callback env n now)).db =
          (callbackNotification env n s.db now).2 := rfl
    · have : (stepWebhook s (WebhookEvent.callback env n now)).db = s.db := by
        rw [hd, h]
      exact (List.get_of_eq this ⟨i, h2⟩).trans (by congr 1)
    · have heq : (stepWebhook s (WebhookEvent.callback env n now)).db =
          (updateStatusAtomicFromPending n.order_id ns (some n) now s.db).2 := by
        rw [hd, h]
      have h2' : i < (updateStatusAtomicFromPending n.order_id ns (some n) now s.db).2.length := by
        rw [← heq]; exact h2
      rw [List.get_of_eq heq ⟨i, h2⟩]
      exact cas_get_preserves_terminal n.order_id ns (some n) now s.db i h1 h2' hs

/-- C2 (amended): once an invoice row is out of `PENDING` (in particular in
any of the terminal states `PAID`, `FAILED`, `EXPIRED`), no sequence of
gateway notifications delivered through the webhook notification handlers,
which mutate invoices only through `updateStatusAtomicFromPending`, ever
changes the row again; `handleMidtransCallback`, by contrast, can overwrite a
terminal status (see its counterexample). -/
theorem webhook_status_monotonic (es : List WebhookEvent) :
    ∀ (s : WebhookState) (i : Nat) (h1 : i < s.db.length)
      (h2 : i < (runWebhooks s es).db.length),
      (s.db.get ⟨i, h1⟩).status ≠ InvoiceStatus.PENDING →
      (runWebhooks s es).db.get ⟨i, h2⟩ = s.db.get ⟨i, h1⟩ := by
  induction es with
  | nil =>
    intro s i h1 h2 hs
    congr 1
  | cons e rest ih =>
    intro s i h1 h2 hs
    have hlen : (stepWebhook s e).db.length = s.db.length := stepWebhook_db_length s e
    have h1' : i < (stepWebhook s e).db.length := by rw [hlen]; exact h1
    have hstep := stepWebhook_preserves_terminal s e i h1 h1' hs
    have hr : runWebhooks s (e :: rest) = runWebhooks (stepWebhook s e) rest := rfl
    have h2' : i < (runWebhooks (stepWebhook s e) rest).db.length := by
      rw [← hr]; exact h2
    have htail := ih (stepWebhook s e) i h1' h2' (by rw [hstep]; exact hs)
    have hh : (runWebhooks s (e :: rest)).db.get ⟨i, h2⟩ =
        (runWebhooks (stepWebhook s e) rest).db.get ⟨i, h2'⟩ := by
      congr 1 <;> rw [hr]
    rw [hh, htail, hstep]

/-- Witness for C2: a `PAID` invoice survives a concrete callback delivery
unchanged. -/
theorem webhook_status_monotonic_witness :
    (runWebhooks (WebhookState.mk [samplePaid] [] [])
      [WebhookEvent.callback sandboxEnv sampleNotification 9]).db.get
        ⟨0, by decide⟩ = samplePaid := by
  have h := webhook_status_monotonic
    [WebhookEvent.callback sandboxEnv sampleNotification 9]
    (WebhookState.mk [samplePaid] [] []) 0 (by decide) (by decide) (by decide)
  exact h

end PaymentGateway

namespace PaymentGateway

/-- C3 counterexample: in the legacy webhook route, a zero-row conditional
update is surfaced as a hard error: a valid settlement delivery for a
`FAILED` invoice passes every validation, the CAS returns `NOOP`, and the
route answers the generic 500 internal error instead of a
success-with-no-effect. -/
theorem legacy_route_noop_surfaced_as_error :
    (midtransNotificationLegacy sandboxEnv "SIG" sampleNotification []
        [sampleFailed] 5).1 = LegacyWebhookResp.internalError ∧
    legacyRespCode LegacyWebhookResp.internalError = 500 ∧
    (updateStatusAtomicFromPending "ORD-1" InvoiceStatus.PAID
        (some sampleNotification) 5 [sampleFailed]).1 = CASResult.NOOP := by
  exact ⟨rfl, rfl, rfl⟩

/-- C3 (amended): error surfacing differs per handler. The callback route
answers 200 on every branch, including signature mismatch, unknown invoice
and unknown vendor status. The current webhook route surfaces schema,
signature, lookup, business-rule and unknown-status failures as hard errors
(400/401/404/400/500), and reports an invalid state transition or an
already-applied status as 200 success-with-no-effect with no state change.
The legacy webhook route, however, surfaces a zero-row conditional update as
a 500 internal error. -/
theorem webhook_error_surfacing_amended :
    (∀ (env : JsEnv) (n : Notification) (db : DB) (now : Nat),
      callbackRespCode (callbackNotification env n db now).1 = 200) ∧
    (∀ (env : JsEnv) (sig : String) (n : Notification) (proc : List String)
        (db : DB) (now : Nat) (e : WebhookValidationError),
      validateWebhookRequest n = some e →
      midtransNotification env sig n proc db now =
        (WebhookResp.badRequestValidation e, db, proc) ∧
      webhookRespCode (WebhookResp.badRequestValidation e) = 400) ∧
    (∀ (env : JsEnv) (sig : String) (n : Notification) (proc : List String)
        (db : DB) (now : Nat),
      validateWebhookRequest n = none →
      env.isProduction = true →
      verifySignature env n sig = false →
      midtransNotification env sig n proc db now =
        (WebhookResp.unauthorized, db, proc) ∧
      webhookRespCode WebhookResp.unauthorized = 401) ∧
    (∀ (env : JsEnv) (sig : String) (n : Notification) (proc : List String)
        (db : DB) (now : Nat),
      validateWebhookRequest n = none →
      (env.isProduction && !verifySignature env n sig) = false →
      proc.contains (n.order_id ++ "_" ++ n.transaction_id ++ "_"
        ++ n.transaction_status) = false →
      db.find? (aliveWithOrderId n.order_id) = none →
      midtransNotification env sig n proc db now =
        (WebhookResp.invoiceNotFound, db, proc) ∧
      webhookRespCode WebhookResp.invoiceNotFound = 404) ∧
    (∀ (env : JsEnv) (sig : String) (n : Notification) (proc : List String)
        (db : DB) (now : Nat) (invoice : Invoice) (e : PaymentRuleError),
      validateWebhookRequest n = none →
      (env.isProduction && !verifySignature env n sig) = false →
      proc.contains (n.order_id ++ "_" ++ n.transaction_id ++ "_"
        ++ n.transaction_status) = false →
      db.find? (aliveWithOrderId n.order_id) = some invoice →
      validatePaymentRules env invoice n = some e →
      midtransNotification env sig n proc db now =
        (WebhookResp.badRequestBusinessRule e, db, proc) ∧
      webhookRespCode (WebhookResp.badRequestBusinessRule e) = 400) ∧
    (∀ (env : JsEnv) (sig : String) (n : Notification) (proc : List String)
        (db : DB) (now : Nat) (invoice : Invoice),
      validateWebhookRequest n = none →
      (env.isProduction && !verifySignature env n sig) = false →
      proc.contains (n.order_id ++ "_" ++ n.transaction_id ++ "_"
        ++ n.transaction_status) = false →
      db.find? (aliveWithOrderId n.order_id) = some invoice →
      validatePaymentRules env invoice n = none →
      mapMidtransStatusToInvoice n.transaction_status = none →
      midtransNotification env sig n proc db now =
        (WebhookResp.internalError, db, proc) ∧
      webhookRespCode WebhookResp.internalError = 500) ∧
    (∀ (env : JsEnv) (sig : String) (n : Notification) (proc : List String)
        (db : DB) (now : Nat) (invoice : Invoice) (ns : InvoiceStatus),
      validateWebhookRequest n = none →
      (env.isProduction && !verifySignature env n sig) = false →
      proc.contains (n.order_id ++ "_" ++ n.transaction_id ++ "_"
        ++ n.transaction_status) = false →
      db.find? (aliveWithOrderId n.order_id) = some invoice →
      validatePaymentRules env invoice n = none →
      mapMidtransStatusToInvoice n.transaction_status = some ns →
      isValidStatusTransition invoice.status ns = false →
      midtransNotification env sig n proc db now =
        (WebhookResp.transitionNotAllowed, db, proc) ∧
      webhookRespCode WebhookResp.transitionNotAllowed = 200) ∧
    (∀ (env : JsEnv) (sig : String) (n : Notification) (proc : List String)
        (db : DB) (now : Nat) (invoice : Invoice) (ns : InvoiceStatus),
      validateWebhookRequest n = none →
      (env.isProduction && !verifySignature env n sig) = false →
      proc.contains (n.order_id ++ "_" ++ n.transaction_id ++ "_"
        ++ n.transaction_status) = false →
      db.find? (aliveWithOrderId n.order_id) = some invoice →
      validatePaymentRules env invoice n = none →
      mapMidtransStatusToInvoice n.transaction_status = some ns →
      isValidStatusTransition invoice.status ns = true →
      invoice.status = ns →
      midtransNotification env sig n proc db now =
        (WebhookResp.statusAlreadySet, db, proc) ∧
      webhookRespCode WebhookResp.statusAlreadySet = 200) ∧
    (∀ (env : JsEnv) (sig : String) (n : Notification) (proc : List String)
        (db : DB) (now : Nat) (invoice : Invoice) (ns : InvoiceStatus),
      validateWebhookRequest n = none →
      (env.isProduction && !verifySignature env n sig) = false →
      proc.contains (n.order_id ++ "_" ++ n.transaction_id ++ "_"
        ++ n.transaction_status) = false →
      db.find? (aliveWithOrderId n.order_id) = some invoice →
      validatePaymentRules env invoice n = none →
      mapMidtransStatusToInvoice n.transaction_status = some ns →
      (updateStatusAtomicFromPending n.order_id ns (some n) now db).1
        = CASResult.NOOP →
      midtransNotificationLegacy env sig n proc db now =
        (LegacyWebhookResp.internalError, db, proc) ∧
      legacyRespCode LegacyWebhookResp.internalError = 500) := by
  refine ⟨?_, ?_, ?_, ?_, ?_, ?_, ?_, ?_, ?_⟩
  · intro env n db now
    exact rfl
  · intro env sig n proc db now e h1
    refine ⟨?_, rfl⟩
    unfold midtransNotification
    simp only [h1]
  · intro env sig n proc db now h1 h2 h3
    refine ⟨?_, rfl⟩
    unfold midtransNotification
    simp only [h1, h2, h3, Bool.not_false, Bool.and_true, if_true]
  · intro env sig n proc db now h1 h2 h3 h4
    refine ⟨?_, rfl⟩
    unfold midtransNotification
    simp only [h1, h2, h3, h4, Bool.false_eq_true, if_false]
  · intro env sig n proc db now invoice e h1 h2 h3 h4 h5
    refine ⟨?_, rfl⟩
    unfold midtransNotification
    simp only [h1, h2, h3, h4, h5, Bool.false_eq_true, if_false]
  · intro env sig n proc db now invoice h1 h2 h3 h4 h5 h6
    refine ⟨?_, rfl⟩
    unfold midtransNotification
    simp only [h1, h2, h3, h4, h5, h6, Bool.false_eq_true, if_false]
  · intro env sig n proc db now invoice ns h1 h2 h3 h4 h5 h6 h7
    refine ⟨?_, rfl⟩
    unfold midtransNotification
    simp only [h1, h2, h3, h4, h5, h6, h7, Bool.false_eq_true, if_false,
      Bool.not_false, if_true]
  · intro env sig n proc db now invoice ns h1 h2 h3 h4 h5 h6 h7 h8
    subst h8
    refine ⟨?_, rfl⟩
    unfold midtransNotification
    simp only [h1, h2, h3, h4, h5, h6, h7, Bool.false_eq_true, if_false,
      Bool.not_true, beq_self_eq_true, if_true]
  · intro env sig n proc db now invoice ns h1 h2 h3 h4 h5 h6 h7
    refine ⟨?_, rfl⟩
    unfold midtransNotificationLegacy
    simp only [h1, h2, h3, h4, h5, h6, h7, Bool.false_eq_true, if_false]
    rw [cas_noop_db n.order_id ns (some n) now db h7]

/-- Witness for C3: a malformed notification (empty order id) is answered
with the 400 validation error by the current webhook route. -/
theorem webhook_error_surfacing_witness :
    midtransNotification sandboxEnv "SIG"
        { sampleNotification with order_id := "" } [] [] 0 =
      (WebhookResp.badRequestValidation
        WebhookValidationError.missingOrderIdOrTransactionStatus, [], []) := by
  exact (webhook_error_surfacing_amended.2.1 sandboxEnv "SIG"
    { sampleNotification with order_id := "" } [] [] 0
    WebhookValidationError.missingOrderIdOrTransactionStatus (by decide)).1

end PaymentGateway

namespace PaymentGateway

/-- A delivery passing the business rules has an exactly matching amount. -/
theorem validatePaymentRules_none_amount (env : JsEnv) (inv : Invoice)
    (n : Notification) :
    validatePaymentRules env inv n = none →
    env.jsNumber n.gross_amount = some inv.amount := by
  unfold validatePaymentRules
  intro h
  by_cases hb : (env.jsNumber n.gross_amount != some inv.amount) = true
  · rw [if_pos hb] at h
    cases h
  · simpa using hb

/-- C4 counterexample: the callback route never checks the amount: a
settlement notification over 90000 with a valid signature moves the 100000
`PENDING` invoice to `PAID`. -/
theorem callback_route_ignores_amount_mismatch :
    sandboxEnv.jsNumber mismatchNotification.gross_amount
      ≠ some samplePending.amount ∧
    samplePending.status = InvoiceStatus.PENDING ∧
    (callbackNotification sandboxEnv mismatchNotification [samplePending] 5).2.head?.map
      Invoice.status = some InvoiceStatus.PAID := by
  refine ⟨by decide, rfl, rfl⟩

/-- C4 (amended): in the two webhook routes that call
`validatePaymentRules` (the current and the legacy midtrans route), a
notification whose coerced `gross_amount` differs from the found invoice's
amount never mutates the database, whatever the invoice status; the callback
route, which has no amount check, does not satisfy this (see the
counterexample). -/
theorem amount_mismatch_no_mutation_amended (env : JsEnv) (sig : String)
    (n : Notification) (proc : List String) (db : DB) (now : Nat)
    (hmis : ∀ invoice, db.find? (aliveWithOrderId n.order_id) = some invoice →
      env.jsNumber n.gross_amount ≠ some invoice.amount) :
    (midtransNotification env sig n proc db now).2.1 = db ∧
    (midtransNotificationLegacy env sig n proc db now).2.1 = db := by
  constructor
  · unfold midtransNotification
    cases h1 : validateWebhookRequest n with
    | some e => rfl
    | none =>
      cases h2 : env.isProduction && !verifySignature env n sig with
      | true => rfl
      | false =>
        dsimp only
        cases h3 : proc.contains (n.order_id ++ "_" ++ n.transaction_id ++ "_"
            ++ n.transaction_status) with
        | true => rfl
        | false =>
          cases h4 : db.find? (aliveWithOrderId n.order_id) with
          | none => rfl
          | some invoice =>
            dsimp only
            cases h5 : validatePaymentRules env invoice n with
            | some e => rfl
            | none =>
              exact absurd (validatePaymentRules_none_amount env invoice n h5)
                (hmis invoice h4)
  · unfold midtransNotificationLegacy
    cases h1 : validateWebhookRequest n with
    | some e => rfl
    | none =>
      cases h2 : env.isProduction && !verifySignature env n sig with
      | true => rfl
      | false =>
        dsimp only
        cases h3 : proc.contains (n.order_id ++ "_" ++ n.transaction_id ++ "_"
            ++ n.transaction_status) with
        | true => rfl
        | false =>
          cases h4 : db.find? (aliveWithOrderId n.order_id) with
          | none => rfl
          | some invoice =>
            dsimp only
            cases h5 : validatePaymentRules env invoice n with
            | some e => rfl
            | none =>
              exact absurd (validatePaymentRules_none_amount env invoice n h5)
                (hmis invoice h4)

/-- Witness for C4: a mismatched delivery against a concrete `PAID` invoice
leaves the table unchanged in both amount-checking routes. -/
theorem amount_mismatch_no_mutation_witness :
    (midtransNotification sandboxEnv "SIG" mismatchNotification [] [samplePaid] 5).2.1
      = [samplePaid] ∧
    (midtransNotificationLegacy sandboxEnv "SIG" mismatchNotification [] [samplePaid] 5).2.1
      = [samplePaid] := by
  exact amount_mismatch_no_mutation_amended sandboxEnv "SIG" mismatchNotification
    [] [samplePaid] 5 (by decide)

end PaymentGateway

namespace PaymentGateway

/-- Decompose a zip across an intermediate list of at least the same
length. -/
theorem zip_comp {α : Type} :
    ∀ {l m n2 : List α} {a c : α}, l.length ≤ m.length →
      (a, c) ∈ l.zip n2 → ∃ b, (a, b) ∈ l.zip m ∧ (b, c) ∈ m.zip n2 := by
  intro l
  induction l with
  | nil => intro m n2 a c _ h; simp [List.zip] at h
  | cons x xs ih =>
    intro m n2 a c hlm h
    cases n2 with
    | nil => simp [List.zip] at h
    | cons z zs =>
      cases m with
      | nil => simp at hlm
      | cons y ys =>
        rcases List.mem_cons.mp h with h1 | h1
        · cases h1
          exact ⟨y, List.mem_cons_self _ _, List.mem_cons_self _ _⟩
        · obtain ⟨b, hb1, hb2⟩ := ih (by simpa using hlm) h1
          exact ⟨b, List.mem_cons_of_mem _ hb1, List.mem_cons_of_mem _ hb2⟩

/-- A zipped pair with an `updateFirst` image: either untouched, or the row
found by the filter, rewritten. -/
theorem mem_zip_updateFirst (p : Invoice → Bool) (f : Invoice → Invoice) :
    ∀ {l : DB} {a b : Invoice},
      (a, b) ∈ l.zip (updateFirst p f l) →
      b = a ∨ (l.find? p = some a ∧ b = f a) := by
  intro l
  induction l with
  | nil => intro a b h; simp [List.zip] at h
  | cons x xs ih =>
    intro a b h
    by_cases hx : p x = true
    · simp only [updateFirst, hx, if_pos] at h
      rcases List.mem_cons.mp h with h1 | h1
      · cases h1
        exact Or.inr ⟨by simp [List.find?_cons, hx], rfl⟩
      · exact Or.inl (mem_zip_self h1)
    · simp only [updateFirst, hx] at h
      rcases List.mem_cons.mp h with h1 | h1
      · cases h1; exact Or.inl rfl
      · rcases ih h1 with h2 | ⟨h2, h3⟩
        · exact Or.inl h2
        · exact Or.inr ⟨by simp [List.find?_cons, hx, h2], h3⟩

/-- A member of an `updateFirst` image: either already a member, or the image
of the row found by the filter. -/
theorem mem_updateFirst (p : Invoice → Bool) (f : Invoice → Invoice) :
    ∀ {l : DB} {b : Invoice},
      b ∈ updateFirst p f l → b ∈ l ∨ ∃ a, l.find? p = some a ∧ b = f a := by
  intro l
  induction l with
  | nil => intro b h; simp [updateFirst] at h
  | cons x xs ih =>
    intro b h
    by_cases hx : p x = true
    · simp only [updateFirst, hx, if_pos] at h
      rcases List.mem_cons.mp h with h1 | h1
      · exact Or.inr ⟨x, by simp [List.find?_cons, hx], h1⟩
      · exact Or.inl (List.mem_cons_of_mem _ h1)
    · simp only [updateFirst, hx] at h
      rcases List.mem_cons.mp h with h1 | h1
      · exact Or.inl (by simp [h1])
      · rcases ih h1 with h2 | ⟨a, h2, h3⟩
        · exact Or.inl (List.mem_cons_of_mem _ h2)
        · exact Or.inr ⟨a, by simp [List.find?_cons, hx, h2], h3⟩

/-- `applyStatusUpdate` never touches the attempt counter. -/
theorem applyStatusUpdate_count (status : InvoiceStatus)
    (pd : Option UpdateStatusData) (now : Nat) (inv : Invoice) :
    (applyStatusUpdate status pd now inv).paymentAttemptCount
      = inv.paymentAttemptCount := by
  unfold applyStatusUpdate
  cases pd with
  | none => rfl
  | some d =>
    by_cases hs : (status == InvoiceStatus.PAID) = true
    · simp [hs]
    · simp [hs]

/-- `casApply` never touches the attempt counter. -/
theorem casApply_count (newStatus : InvoiceStatus) (pd : Option Notification)
    (now : Nat) (inv : Invoice) :
    (casApply newStatus pd now inv).paymentAttemptCount
      = inv.paymentAttemptCount := by
  unfold casApply
  cases pd with
  | none => rfl
  | some d =>
    by_cases hs : (newStatus == InvoiceStatus.PAID) = true
    · simp [hs]
    · simp [hs]

/-- `handleMidtransCallback` leaves the database unchanged or rewrites the
found row with a counter-preserving mutation. -/
theorem handleMidtransCallback_db_cases (orderId ts raw : String) (now : Nat)
    (db : DB) :
    (handleMidtransCallback orderId ts raw now db).2 = db ∨
    ∃ f : Invoice → Invoice,
      (∀ inv, (f inv).paymentAttemptCount = inv.paymentAttemptCount) ∧
      (handleMidtransCallback orderId ts raw now db).2 =
        updateFirst (aliveWithOrderId orderId) f db := by
  unfold handleMidtransCallback
  repeat first
  | exact Or.inl rfl
  | exact Or.inr ⟨_, fun inv => by split <;> rfl, rfl⟩
  | split
  | dsimp only

/-- `generatePaymentLink` leaves the database unchanged, or marks the found
row (whose budget was checked to be below 3) in progress and then applies a
second counter-preserving rewrite. -/
theorem generatePaymentLink_db_cases (id : String) (ext : Except String String)
    (now : Nat) (db : DB) :
    (generatePaymentLink id ext now db).2 = db ∨
    ∃ (invoice : Invoice) (g : Invoice → Invoice),
      db.find? (aliveWithId id) = some invoice ∧
      invoice.paymentAttemptCount < 3 ∧
      (generatePaymentLink id ext now db).2 =
        updateFirst (aliveWithId id) g
          (updateFirst (aliveWithId id) (markLinkInProgress now) db) ∧
      (∀ inv, (g inv).paymentAttemptCount = inv.paymentAttemptCount) := by
  unfold generatePaymentLink
  cases hf : db.find? (aliveWithId id) with
  | none => exact Or.inl rfl
  | some invoice =>
    dsimp only
    repeat first
    | exact Or.inl rfl
    | exact Or.inr ⟨invoice, _, rfl, by omega, rfl, fun inv => rfl⟩
    | split
    | dsimp only

end PaymentGateway

namespace PaymentGateway

/-- No operation shrinks the invoices table. -/
theorem applyOp_length_ge (db : DB) (op : AppOp) :
    db.length ≤ (applyOp db op).length := by
  cases op with
  | opCreate orderId amount id now =>
    show db.length ≤ (create orderId amount id now db).2.length
    unfold create
    split
    · exact Nat.le_refl _
    · simp
  | opGeneratePaymentLink id ext now =>
    show db.length ≤ (generatePaymentLink id ext now db).2.length
    rcases generatePaymentLink_db_cases id ext now db with h | ⟨inv, g, _, _, h, _⟩
    · rw [h]
    · rw [h, updateFirst_length, updateFirst_length]
  | opUpdateStatus id status pd now =>
    show db.length ≤ (updateStatus id status pd now db).2.length
    unfold updateStatus
    cases db.find? (aliveWithId id) with
    | none => exact Nat.le_refl _
    | some invoice => dsimp only; rw [updateFirst_length]
  | opUpdateStatusByOrderId orderId status pd now =>
    show db.length ≤ (updateStatusByOrderId orderId status pd now db).2.length
    unfold updateStatusByOrderId
    cases db.find? (aliveWithOrderId orderId) with
    | none => exact Nat.le_refl _
    | some invoice => dsimp only; rw [updateFirst_length]
  | opCAS orderId newStatus pd now =>
    show db.length ≤ (updateStatusAtomicFromPending orderId newStatus pd now db).2.length
    rw [cas_length]
  | opSoftDelete id now =>
    show db.length ≤ (softDelete id now db).2.length
    unfold softDelete
    cases db.find? (aliveWithId id) with
    | none => exact Nat.le_refl _
    | some invoice => dsimp only; rw [updateFirst_length]
  | opHandleCallback orderId ts raw now =>
    show db.length ≤ (handleMidtransCallback orderId ts raw now db).2.length
    rcases handleMidtransCallback_db_cases orderId ts raw now db with h | ⟨f, _, h⟩
    · rw [h]
    · rw [h, updateFirst_length]

/-- No operation decreases the attempt counter of any surviving row. -/
theorem applyOp_count_pairs (db : DB) (op : AppOp) :
    ∀ a b : Invoice, (a, b) ∈ db.zip (applyOp db op) →
      a.paymentAttemptCount ≤ b.paymentAttemptCount := by
  cases op with
  | opCreate orderId amount id now =>
    intro a b hm
    have : (create orderId amount id now db).2 = db ∨
        ∃ x, (create orderId amount id now db).2 = db ++ [x] := by
      unfold create
      split
      · exact Or.inl rfl
      · exact Or.inr ⟨_, rfl⟩
    rcases this with h | ⟨x, h⟩
    · rw [show applyOp db (AppOp.opCreate orderId amount id now) =
          (create orderId amount id now db).2 from rfl, h] at hm
      rw [mem_zip_self hm]
    · rw [show applyOp db (AppOp.opCreate orderId amount id now) =
          (create orderId amount id now db).2 from rfl, h] at hm
      rw [mem_zip_append_self hm]
  | opGeneratePaymentLink id ext now =>
    intro a b hm
    rcases generatePaymentLink_db_cases id ext now db with h | ⟨inv, g, hf, hlt, h, hg⟩
    · rw [show applyOp db (AppOp.opGeneratePaymentLink id ext now) =
          (generatePaymentLink id ext now db).2 from rfl, h] at hm
      rw [mem_zip_self hm]
    · rw [show applyOp db (AppOp.opGeneratePaymentLink id ext now) =
          (generatePaymentLink id ext now db).2 from rfl, h] at hm
      have hlen : db.length ≤ (updateFirst (aliveWithId id)
          (markLinkInProgress now) db).length := by
        rw [updateFirst_length]
      obtain ⟨c, hc1, hc2⟩ := zip_comp hlen hm
      have h2 : b.paymentAttemptCount = c.paymentAttemptCount := by
        rcases mem_zip_updateFirst _ _ hc2 with h3 | ⟨_, h3⟩
        · rw [h3]
        · rw [h3, hg]
      rw [h2]
      rcases mem_zip_updateFirst _ _ hc1 with h3 | ⟨_, h3⟩
      · rw [h3]
      · rw [h3]
        exact Nat.le_succ _
  | opUpdateStatus id status pd now =>
    intro a b hm
    replace hm : (a, b) ∈ db.zip (updateStatus id status pd now db).2 := hm
    unfold updateStatus at hm
    cases hf : db.find? (aliveWithId id) with
    | none => rw [hf] at hm; exact Nat.le_of_eq (congrArg _ (mem_zip_self hm)).symm
    | some invoice =>
      rw [hf] at hm
      dsimp only at hm
      rcases mem_zip_updateFirst _ _ hm with h3 | ⟨_, h3⟩
      · rw [h3]
      · rw [h3, applyStatusUpdate_count]
  | opUpdateStatusByOrderId orderId status pd now =>
    intro a b hm
    replace hm : (a, b) ∈ db.zip (updateStatusByOrderId orderId status pd now db).2 := hm
    unfold updateStatusByOrderId at hm
    cases hf : db.find? (aliveWithOrderId orderId) with
    | none => rw [hf] at hm; exact Nat.le_of_eq (congrArg _ (mem_zip_self hm)).symm
    | some invoice =>
      rw [hf] at hm
      dsimp only at hm
      rcases mem_zip_updateFirst _ _ hm with h3 | ⟨_, h3⟩
      · rw [h3]
      · rw [h3, applyStatusUpdate_count]
  | opCAS orderId newStatus pd now =>
    intro a b hm
    have hmap : (updateStatusAtomicFromPending orderId newStatus pd now db).2 =
        db.map (fun inv => if casMatches orderId inv then
          casApply newStatus pd now inv else inv) := rfl
    rw [show applyOp db (AppOp.opCAS orderId newStatus pd now) =
        (updateStatusAtomicFromPending orderId newStatus pd now db).2 from rfl,
      hmap] at hm
    have hb := @mem_zip_map_self Invoice (fun inv => if casMatches orderId inv then
      casApply newStatus pd now inv else inv) db a b hm
    rw [hb]
    dsimp only
    by_cases hc : casMatches orderId a = true
    · rw [if_pos hc, casApply_count]
    · rw [if_neg hc]
  | opSoftDelete id now =>
    intro a b hm
    replace hm : (a, b) ∈ db.zip (softDelete id now db).2 := hm
    unfold softDelete at hm
    cases hf : db.find? (aliveWithId id) with
    | none => rw [hf] at hm; exact Nat.le_of_eq (congrArg _ (mem_zip_self hm)).symm
    | some invoice =>
      rw [hf] at hm
      dsimp only at hm
      rcases mem_zip_updateFirst _ _ hm with h3 | ⟨_, h3⟩
      · rw [h3]
      · rw [h3]
  | opHandleCallback orderId ts raw now =>
    intro a b hm
    rcases handleMidtransCallback_db_cases orderId ts raw now db with h | ⟨f, hf, h⟩
    · rw [show applyOp db (AppOp.opHandleCallback orderId ts raw now) =
          (handleMidtransCallback orderId ts raw now db).2 from rfl, h] at hm
      rw [mem_zip_self hm]
    · rw [show applyOp db (AppOp.opHandleCallback orderId ts raw now) =
          (handleMidtransCallback orderId ts raw now db).2 from rfl, h] at hm
      rcases mem_zip_updateFirst _ _ hm with h3 | ⟨_, h3⟩
      · rw [h3]
      · rw [h3, hf]

end PaymentGateway

namespace PaymentGateway

/-- No operation pushes any attempt counter above 3 when all counters were at
most 3 before. -/
theorem applyOp_bound (db : DB) (op : AppOp)
    (hdb : ∀ inv ∈ db, inv.paymentAttemptCount ≤ 3) :
    ∀ inv ∈ applyOp db op, inv.paymentAttemptCount ≤ 3 := by
  cases op with
  | opCreate orderId amount id now =>
    intro b hb
    replace hb : b ∈ (create orderId amount id now db).2 := hb
    unfold create at hb
    by_cases hd : (db.any fun i => i.orderId == orderId && i.deletedAt == none) = true
    · rw [if_pos hd] at hb
      exact hdb b hb
    · rw [if_neg hd] at hb
      dsimp only at hb
      rcases List.mem_append.mp hb with h | h
      · exact hdb b h
      · rcases List.mem_singleton.mp h with rfl
        exact Nat.zero_le 3
  | opGeneratePaymentLink id ext now =>
    intro b hb
    rcases generatePaymentLink_db_cases id ext now db with h | ⟨inv, g, hf, hlt, h, hg⟩
    · rw [show applyOp db (AppOp.opGeneratePaymentLink id ext now) =
          (generatePaymentLink id ext now db).2 from rfl, h] at hb
      exact hdb b hb
    · rw [show applyOp db (AppOp.opGeneratePaymentLink id ext now) =
          (generatePaymentLink id ext now db).2 from rfl, h] at hb
      have hmark : ∀ x ∈ updateFirst (aliveWithId id) (markLinkInProgress now) db,
          x.paymentAttemptCount ≤ 3 := by
        intro x hx
        rcases mem_updateFirst _ _ hx with h1 | ⟨a, h1, h2⟩
        · exact hdb x h1
        · rw [hf] at h1
          cases h1
          rw [h2]
          show inv.paymentAttemptCount + 1 ≤ 3
          omega
      rcases mem_updateFirst _ _ hb with h1 | ⟨a, h1, h2⟩
      · exact hmark b h1
      · rw [h2, hg]
        exact hmark a (List.mem_of_find?_eq_some h1)
  | opUpdateStatus id status pd now =>
    intro b hb
    replace hb : b ∈ (updateStatus id status pd now db).2 := hb
    unfold updateStatus at hb
    cases hf : db.find? (aliveWithId id) with
    | none => rw [hf] at hb; exact hdb b hb
    | some invoice =>
      rw [hf] at hb
      dsimp only at hb
      rcases mem_updateFirst _ _ hb with h1 | ⟨a, h1, h2⟩
      · exact hdb b h1
      · rw [h2, applyStatusUpdate_count]
        exact hdb a (List.mem_of_find?_eq_some h1)
  | opUpdateStatusByOrderId orderId status pd now =>
    intro b hb
    replace hb : b ∈ (updateStatusByOrderId orderId status pd now db).2 := hb
    unfold updateStatusByOrderId at hb
    cases hf : db.find? (aliveWithOrderId orderId) with
    | none => rw [hf] at hb; exact hdb b hb
    | some invoice =>
      rw [hf] at hb
      dsimp only at hb
      rcases mem_updateFirst _ _ hb with h1 | ⟨a, h1, h2⟩
      · exact hdb b h1
      · rw [h2, applyStatusUpdate_count]
        exact hdb a (List.mem_of_find?_eq_some h1)
  | opCAS orderId newStatus pd now =>
    intro b hb
    have hmap : (updateStatusAtomicFromPending orderId newStatus pd now db).2 =
        db.map (fun inv => if casMatches orderId inv then
          casApply newStatus pd now inv else inv) := rfl
    rw [show applyOp db (AppOp.opCAS orderId newStatus pd now) =
        (updateStatusAtomicFromPending orderId newStatus pd now db).2 from rfl,
      hmap] at hb
    rcases List.mem_map.mp hb with ⟨a, ha, hfa⟩
    by_cases hc : casMatches orderId a = true
    · rw [← hfa, if_pos hc, casApply_count]
      exact hdb a ha
    · rw [← hfa, if_neg hc]
      exact hdb a ha
  | opSoftDelete id now =>
    intro b hb
    replace hb : b ∈ (softDelete id now db).2 := hb
    unfold softDelete at hb
    cases hf : db.find? (aliveWithId id) with
    | none => rw [hf] at hb; exact hdb b hb
    | some invoice =>
      rw [hf] at hb
      dsimp only at hb
      rcases mem_updateFirst _ _ hb with h1 | ⟨a, h1, h2⟩
      · exact hdb b h1
      · rw [h2]
        exact hdb a (List.mem_of_find?_eq_some h1)
  | opHandleCallback orderId ts raw now =>
    intro b hb
    rcases handleMidtransCallback_db_cases orderId ts raw now db with h | ⟨f, hfc, h⟩
    · rw [show applyOp db (AppOp.opHandleCallback orderId ts raw now) =
          (handleMidtransCallback orderId ts raw now db).2 from rfl, h] at hb
      exact hdb b hb
    · rw [show applyOp db (AppOp.opHandleCallback orderId ts raw now) =
          (handleMidtransCallback orderId ts raw now db).2 from rfl, h] at hb
      rcases mem_updateFirst _ _ hb with h1 | ⟨a, h1, h2⟩
      · exact hdb b h1
      · rw [h2, hfc]
        exact hdb a (List.mem_of_find?_eq_some h1)

/-- Over any operation sequence, surviving rows never lose attempt-counter
value. -/
theorem runOps_count_mono :
    ∀ (ops : List AppOp) (db : DB) (a b : Invoice),
      (a, b) ∈ db.zip (runOps db ops) →
      a.paymentAttemptCount ≤ b.paymentAttemptCount := by
  intro ops
  induction ops with
  | nil =>
    intro db a b hm
    rw [mem_zip_self hm]
  | cons op rest ih =>
    intro db a b hm
    have hr : runOps db (op :: rest) = runOps (applyOp db op) rest := rfl
    rw [hr] at hm
    obtain ⟨c, hc1, hc2⟩ := zip_comp (applyOp_length_ge db op) hm
    exact Nat.le_trans (applyOp_count_pairs db op a c hc1)
      (ih (applyOp db op) c b hc2)

/-- Over any operation sequence, all attempt counters stay at most 3. -/
theorem runOps_bound :
    ∀ (ops : List AppOp) (db : DB),
      (∀ inv ∈ db, inv.paymentAttemptCount ≤ 3) →
      ∀ inv ∈ runOps db ops, inv.paymentAttemptCount ≤ 3 := by
  intro ops
  induction ops with
  | nil => intro db hdb inv hm; exact hdb inv hm
  | cons op rest ih =>
    intro db hdb inv hm
    exact ih (applyOp db op) (applyOp_bound db op hdb) inv hm

end PaymentGateway

namespace PaymentGateway

/-- C6 counterexample: on a `PAID` invoice whose counter already sits at 3, a
further link-generation call fails with the already-paid error, not the
attempt-budget error, because the terminal-status checks run first. -/
theorem budget_error_shadowed_by_paid_check :
    samplePaidBudget.paymentAttemptCount = 3 ∧
    generatePaymentLink "1" (Except.ok "URL") 9 [samplePaidBudget] =
      (Except.error ServiceError.invoiceAlreadyPaid, [samplePaidBudget]) := by
  exact ⟨rfl, rfl⟩

/-- C6 (amended): `paymentAttemptCount` starts at 0 on creation, never
decreases and never exceeds 3 across any sequence of service operations; a
link-generation call on a live invoice whose counter is already 3 and which
is not already `PAID` or `EXPIRED` (those checks run first and then win)
fails with the attempt-budget error and leaves the whole table unchanged. -/
theorem paymentAttemptCount_budget_amended :
    (∀ (orderId : String) (amount : Int) (id : String) (now : Nat) (db : DB)
        (inv : Invoice) (db2 : DB),
      create orderId amount id now db = (Except.ok inv, db2) →
      inv.paymentAttemptCount = 0) ∧
    (∀ (ops : List AppOp) (db : DB) (a b : Invoice),
      (a, b) ∈ db.zip (runOps db ops) →
      a.paymentAttemptCount ≤ b.paymentAttemptCount) ∧
    (∀ (ops : List AppOp) (db : DB),
      (∀ inv ∈ db, inv.paymentAttemptCount ≤ 3) →
      ∀ inv ∈ runOps db ops, inv.paymentAttemptCount ≤ 3) ∧
    (∀ (id : String) (ext : Except String String) (now : Nat) (db : DB)
        (invoice : Invoice),
      db.find? (aliveWithId id) = some invoice →
      invoice.status ≠ InvoiceStatus.PAID →
      invoice.status ≠ InvoiceStatus.EXPIRED →
      invoice.paymentAttemptCount = 3 →
      generatePaymentLink id ext now db =
        (Except.error ServiceError.maxPaymentAttemptsReached, db)) := by
  refine ⟨?_, runOps_count_mono, runOps_bound, ?_⟩
  · intro orderId amount id now db inv db2 h
    unfold create at h
    by_cases hd : (db.any fun i => i.orderId == orderId && i.deletedAt == none) = true
    · rw [if_pos hd] at h
      simp at h
    · rw [if_neg hd] at h
      dsimp only at h
      have := congrArg Prod.fst h
      simp only [Except.ok.injEq] at this
      rw [← this]
  · intro id ext now db invoice hf hP hE hc
    unfold generatePaymentLink
    rw [hf]
    dsimp only
    rw [if_neg (by simp [hP]), if_neg (by simp [hE]), if_pos (by omega)]

/-- Witness for C6: a live `PENDING` invoice with counter 3 is refused with
the attempt-budget error and the table is untouched. -/
theorem paymentAttemptCount_budget_witness :
    generatePaymentLink "1" (Except.ok "URL") 9 [samplePendingBudgetFresh] =
      (Except.error ServiceError.maxPaymentAttemptsReached,
        [samplePendingBudgetFresh]) := by
  exact paymentAttemptCount_budget_amended.2.2.2 "1" (Except.ok "URL") 9
    [samplePendingBudgetFresh] samplePendingBudgetFresh (by decide) (by decide)
    (by decide) (by decide)

end PaymentGateway

namespace PaymentGateway

/-- C7: when the external gateway call fails, the coordinator re-raises the
original error, and the invoice row ends with `paymentLinkCreatedAt` cleared
while keeping the already-incremented `paymentAttemptCount`; the table keeps
its size. -/
theorem generatePaymentLink_failure_compensation (id : String) (e : String)
    (now : Nat) (db : DB) (invoice : Invoice)
    (hf : db.find? (aliveWithId id) = some invoice)
    (hP : invoice.status ≠ InvoiceStatus.PAID)
    (hE : invoice.status ≠ InvoiceStatus.EXPIRED)
    (hc : invoice.paymentAttemptCount < 3)
    (ha : hasActiveLink now invoice = false) :
    (generatePaymentLink id (Except.error e) now db).1 =
      Except.error (ServiceError.midtransApiError e) ∧
    (generatePaymentLink id (Except.error e) now db).2.length = db.length ∧
    (generatePaymentLink id (Except.error e) now db).2.find? (aliveWithId id) =
      some { invoice with
        paymentAttemptCount := invoice.paymentAttemptCount + 1
        paymentLinkCreatedAt := none } := by
  have hgoal : generatePaymentLink id (Except.error e) now db =
      (Except.error (ServiceError.midtransApiError e),
        updateFirst (aliveWithId id) (fun inv => { inv with paymentLinkCreatedAt := none })
          (updateFirst (aliveWithId id) (markLinkInProgress now) db)) := by
    unfold generatePaymentLink
    rw [hf]
    dsimp only
    rw [if_neg (by simp [hP]), if_neg (by simp [hE]), if_neg (by omega),
      if_neg (by simp [ha])]
  have hp1 : ∀ a, aliveWithId id a = true →
      aliveWithId id (markLinkInProgress now a) = true := by
    intro a h
    simpa [aliveWithId, markLinkInProgress] using h
  have hp2 : ∀ a : Invoice, aliveWithId id a = true →
      aliveWithId id { a with paymentLinkCreatedAt := none } = true := by
    intro a h
    simpa [aliveWithId] using h
  refine ⟨by rw [hgoal], by rw [hgoal]; dsimp only; rw [updateFirst_length, updateFirst_length], ?_⟩
  rw [hgoal]
  dsimp only
  rw [find?_updateFirst _ _ hp2, find?_updateFirst _ _ hp1, hf]
  rfl

/-- Witness for C7: a failing gateway call against a fresh invoice leaves
one attempt consumed and no provisional timestamp. -/
theorem generatePaymentLink_failure_compensation_witness :
    (generatePaymentLink "1" (Except.error "boom") 9 [samplePending]).1 =
      Except.error (ServiceError.midtransApiError "boom") ∧
    (generatePaymentLink "1" (Except.error "boom") 9 [samplePending]).2.find?
        (aliveWithId "1") =
      some { samplePending with
        paymentAttemptCount := 1
        paymentLinkCreatedAt := none } := by
  have h := generatePaymentLink_failure_compensation "1" "boom" 9 [samplePending]
    samplePending (by decide) (by decide) (by decide) (by decide) (by decide)
  exact ⟨h.1, h.2.2⟩

end PaymentGateway

namespace PaymentGateway

/-- C9 counterexample: a repeated link request for an invoice with a
non-null link under 30 minutes old is answered with the max-attempts 409
error, not the existing link, when the attempt budget is already exhausted,
because the budget check precedes the freshness check. -/
theorem fresh_link_not_returned_when_budget_exhausted :
    samplePendingBudgetFresh.paymentLink = some "L" ∧
    samplePendingBudgetFresh.paymentLinkCreatedAt = some 5 ∧
    (10 : Nat) - 5 < 30 * 60 * 1000 ∧
    paymentLinksRoute "ORD-1" [] (Except.ok "URL") 10 [samplePendingBudgetFresh] =
      (PaymentLinksResp.maxAttemptsReached, [samplePendingBudgetFresh]) := by
  exact ⟨rfl, rfl, by decide, rfl⟩

/-- C9 (amended): for an eligible invoice (found, not `PAID`, not `EXPIRED`,
attempt budget not exhausted — checks that all precede the freshness check),
a repeated request while the link is under 30 minutes old returns the
existing link unchanged with no state change, and a request at or past 30
minutes delegates to `generatePaymentLink`, hence is subject to the attempt
budget. -/
theorem link_freshness_amended (order_id : String) (processing : List String)
    (ext : Except String String) (now : Nat) (db : DB) (p : Invoice)
    (url : String) (t : Nat)
    (hp0 : order_id ≠ "")
    (hlock : processing.contains ("payment_link_" ++ order_id) = false)
    (hf : db.find? (aliveWithOrderId order_id) = some p)
    (hP : p.status ≠ InvoiceStatus.PAID)
    (hE : p.status ≠ InvoiceStatus.EXPIRED)
    (hc : p.paymentAttemptCount < 3)
    (hl : p.paymentLink = some url)
    (ht : p.paymentLinkCreatedAt = some t) :
    (now - t < 30 * 60 * 1000 →
      paymentLinksRoute order_id processing ext now db =
        (PaymentLinksResp.freshLink url, db)) ∧
    (30 * 60 * 1000 ≤ now - t →
      paymentLinksRoute order_id processing ext now db =
        (match (generatePaymentLink p.id ext now db).1 with
         | Except.ok updated =>
             (PaymentLinksResp.generated updated.paymentLink,
               (generatePaymentLink p.id ext now db).2)
         | Except.error _ =>
             (PaymentLinksResp.internalError,
               (generatePaymentLink p.id ext now db).2))) := by
  have hbody : paymentLinksRoute order_id processing ext now db =
      (if now - t < 30 * 60 * 1000 then (PaymentLinksResp.freshLink url, db)
       else
        (match (generatePaymentLink p.id ext now db).1 with
         | Except.ok updated =>
             (PaymentLinksResp.generated updated.paymentLink,
               (generatePaymentLink p.id ext now db).2)
         | Except.error _ =>
             (PaymentLinksResp.internalError,
               (generatePaymentLink p.id ext now db).2))) := by
    unfold paymentLinksRoute
    rw [if_neg (by simp [hp0]), if_neg (by intro h; rw [hlock] at h; cases h), hf]
    dsimp only
    rw [if_neg (by simp [hP]), if_neg (by simp [hE]), if_neg (by omega), hl, ht]
  constructor
  · intro hfresh
    rw [hbody, if_pos hfresh]
  · intro hstale
    rw [hbody, if_neg (by omega)]

/-- Witness for C9: a link from t=5 requested at t=10 with budget remaining
is returned unchanged. -/
theorem link_freshness_witness :
    paymentLinksRoute "ORD-1" [] (Except.ok "URL") 10 [samplePendingFresh] =
      (PaymentLinksResp.freshLink "L", [samplePendingFresh]) := by
  exact (link_freshness_amended "ORD-1" [] (Except.ok "URL") 10
    [samplePendingFresh] samplePendingFresh "L" 5 (by decide) (by decide)
    (by decide) (by decide) (by decide) (by decide) (by decide) (by decide)).1
    (by decide)

end PaymentGateway

namespace PaymentGateway

/-- The by-id filter, in propositional form. -/
theorem aliveWithId_iff (id : String) (inv : Invoice) :
    aliveWithId id inv = true ↔ inv.id = id ∧ inv.deletedAt = none := by
  simp [aliveWithId]

/-- The by-orderId filter, in propositional form. -/
theorem aliveWithOrderId_iff (orderId : String) (inv : Invoice) :
    aliveWithOrderId orderId inv = true ↔
      inv.orderId = orderId ∧ inv.deletedAt = none := by
  simp [aliveWithOrderId]

/-- A soft-deleted row never passes the by-id filter. -/
theorem aliveWithId_false_of_deleted (id : String) (a : Invoice)
    (h : a.deletedAt ≠ none) : aliveWithId id a = false := by
  cases hda : a.deletedAt with
  | none => exact absurd hda h
  | some v => simp [aliveWithId, hda]

/-- A soft-deleted row never passes the by-orderId filter. -/
theorem aliveWithOrderId_false_of_deleted (orderId : String) (a : Invoice)
    (h : a.deletedAt ≠ none) : aliveWithOrderId orderId a = false := by
  cases hda : a.deletedAt with
  | none => exact absurd hda h
  | some v => simp [aliveWithOrderId, hda]

/-- A soft-deleted row never matches the CAS condition. -/
theorem casMatches_false_of_deleted (orderId : String) (a : Invoice)
    (h : a.deletedAt ≠ none) : casMatches orderId a = false := by
  cases hda : a.deletedAt with
  | none => exact absurd hda h
  | some v => simp [casMatches, hda]

/-- No operation rewrites a soft-deleted row. -/
theorem applyOp_preserves_deleted (db : DB) (op : AppOp) :
    ∀ a b : Invoice, (a, b) ∈ db.zip (applyOp db op) → a.deletedAt ≠ none →
      b = a := by
  cases op with
  | opCreate orderId amount id now =>
    intro a b hm _
    have : (create orderId amount id now db).2 = db ∨
        ∃ x, (create orderId amount id now db).2 = db ++ [x] := by
      unfold create
      split
      · exact Or.inl rfl
      · exact Or.inr ⟨_, rfl⟩
    rcases this with h | ⟨x, h⟩
    · rw [show applyOp db (AppOp.opCreate orderId amount id now) =
          (create orderId amount id now db).2 from rfl, h] at hm
      exact mem_zip_self hm
    · rw [show applyOp db (AppOp.opCreate orderId amount id now) =
          (create orderId amount id now db).2 from rfl, h] at hm
      exact mem_zip_append_self hm
  | opGeneratePaymentLink id ext now =>
    intro a b hm hdel
    rcases generatePaymentLink_db_cases id ext now db with h | ⟨inv, g, hf, hlt, h, hg⟩
    · rw [show applyOp db (AppOp.opGeneratePaymentLink id ext now) =
          (generatePaymentLink id ext now db).2 from rfl, h] at hm
      exact mem_zip_self hm
    · rw [show applyOp db (AppOp.opGeneratePaymentLink id ext now) =
          (generatePaymentLink id ext now db).2 from rfl, h] at hm
      have hlen : db.length ≤ (updateFirst (aliveWithId id)
          (markLinkInProgress now) db).length := by
        rw [updateFirst_length]
      obtain ⟨c, hc1, hc2⟩ := zip_comp hlen hm
      have hca : c = a :=
        mem_zip_updateFirst_of_not_p _ _ hc1 (aliveWithId_false_of_deleted id a hdel)
      rw [hca] at hc2
      exact mem_zip_updateFirst_of_not_p _ _ hc2 (aliveWithId_false_of_deleted id a hdel)
  | opUpdateStatus id status pd now =>
    intro a b hm hdel
    replace hm : (a, b) ∈ db.zip (updateStatus id status pd now db).2 := hm
    unfold updateStatus at hm
    cases hf : db.find? (aliveWithId id) with
    | none => rw [hf] at hm; exact mem_zip_self hm
    | some invoice =>
      rw [hf] at hm
      dsimp only at hm
      exact mem_zip_updateFirst_of_not_p _ _ hm (aliveWithId_false_of_deleted id a hdel)
  | opUpdateStatusByOrderId orderId status pd now =>
    intro a b hm hdel
    replace hm : (a, b) ∈ db.zip (updateStatusByOrderId orderId status pd now db).2 := hm
    unfold updateStatusByOrderId at hm
    cases hf : db.find? (aliveWithOrderId orderId) with
    | none => rw [hf] at hm; exact mem_zip_self hm
    | some invoice =>
      rw [hf] at hm
      dsimp only at hm
      exact mem_zip_updateFirst_of_not_p _ _ hm
        (aliveWithOrderId_false_of_deleted orderId a hdel)
  | opCAS orderId newStatus pd now =>
    intro a b hm hdel
    have hmap : (updateStatusAtomicFromPending orderId newStatus pd now db).2 =
        db.map (fun inv => if casMatches orderId inv then
          casApply newStatus pd now inv else inv) := rfl
    rw [show applyOp db (AppOp.opCAS orderId newStatus pd now) =
        (updateStatusAtomicFromPending orderId newStatus pd now db).2 from rfl,
      hmap] at hm
    have hb := @mem_zip_map_self Invoice (fun inv => if casMatches orderId inv then
      casApply newStatus pd now inv else inv) db a b hm
    rw [hb]
    dsimp only
    rw [if_neg]
    rw [casMatches_false_of_deleted orderId a hdel]
    exact Bool.false_ne_true
  | opSoftDelete id now =>
    intro a b hm hdel
    replace hm : (a, b) ∈ db.zip (softDelete id now db).2 := hm
    unfold softDelete at hm
    cases hf : db.find? (aliveWithId id) with
    | none => rw [hf] at hm; exact mem_zip_self hm
    | some invoice =>
      rw [hf] at hm
      dsimp only at hm
      exact mem_zip_updateFirst_of_not_p _ _ hm (aliveWithId_false_of_deleted id a hdel)
  | opHandleCallback orderId ts raw now =>
    intro a b hm hdel
    rcases handleMidtransCallback_db_cases orderId ts raw now db with h | ⟨f, hfc, h⟩
    · rw [show applyOp db (AppOp.opHandleCallback orderId ts raw now) =
          (handleMidtransCallback orderId ts raw now db).2 from rfl, h] at hm
      exact mem_zip_self hm
    · rw [show applyOp db (AppOp.opHandleCallback orderId ts raw now) =
          (handleMidtransCallback orderId ts raw now db).2 from rfl, h] at hm
      exact mem_zip_updateFirst_of_not_p _ _ hm
        (aliveWithOrderId_false_of_deleted orderId a hdel)

end PaymentGateway

namespace PaymentGateway

/-- C10: a soft-deleted invoice is invisible and immutable: lookups only ever
return live rows; when every row under a key is soft-deleted, the finders
return none, the by-key updates and `softDelete` fail with their not-found
errors leaving the table unchanged, `generatePaymentLink` fails the same way,
and the atomic conditional update returns `NOOP` with the table unchanged;
and no operation ever rewrites a soft-deleted row. -/
theorem soft_deleted_rows_untouched :
    (∀ (id : String) (db : DB) (inv : Invoice),
      findById id db = some inv → inv.deletedAt = none) ∧
    (∀ (orderId : String) (db : DB) (inv : Invoice),
      findByOrderId orderId db = some inv → inv.deletedAt = none) ∧
    (∀ (id : String) (db : DB) (inv : Invoice),
      findWithLock id db = some inv → inv.deletedAt = none) ∧
    (∀ (id : String) (db : DB),
      (∀ inv ∈ db, inv.id = id → inv.deletedAt ≠ none) →
      findById id db = none ∧
      (∀ status pd now, updateStatus id status pd now db =
        (Except.error ServiceError.invoiceNotFound, db)) ∧
      (∀ now, softDelete id now db =
        (Except.error ServiceError.invoiceNotFound, db)) ∧
      (∀ ext now, generatePaymentLink id ext now db =
        (Except.error ServiceError.invoiceNotFound, db))) ∧
    (∀ (orderId : String) (db : DB),
      (∀ inv ∈ db, inv.orderId = orderId → inv.deletedAt ≠ none) →
      findByOrderId orderId db = none ∧
      (∀ status pd now, updateStatusByOrderId orderId status pd now db =
        (Except.error ServiceError.invoiceWithOrderIdNotFound, db)) ∧
      (∀ ns pd now, updateStatusAtomicFromPending orderId ns pd now db =
        (CASResult.NOOP, db))) ∧
    (∀ (op : AppOp) (db : DB) (a b : Invoice),
      (a, b) ∈ db.zip (applyOp db op) → a.deletedAt ≠ none → b = a) := by
  refine ⟨?_, ?_, ?_, ?_, ?_, fun op db a b hm hdel =>
    applyOp_preserves_deleted db op a b hm hdel⟩
  · intro id db inv h
    exact ((aliveWithId_iff id inv).mp (List.find?_some h)).2
  · intro orderId db inv h
    exact ((aliveWithOrderId_iff orderId inv).mp (List.find?_some h)).2
  · intro id db inv h
    exact ((aliveWithId_iff id inv).mp (List.find?_some h)).2
  · intro id db hdel
    have hnone : db.find? (aliveWithId id) = none :=
      List.find?_eq_none.mpr (fun a ha hp =>
        (hdel a ha ((aliveWithId_iff id a).mp hp).1) ((aliveWithId_iff id a).mp hp).2)
    refine ⟨hnone, ?_, ?_, ?_⟩
    · intro status pd now
      unfold updateStatus
      rw [hnone]
    · intro now
      unfold softDelete
      rw [hnone]
    · intro ext now
      unfold generatePaymentLink
      rw [hnone]
  · intro orderId db hdel
    have hall : ∀ inv ∈ db, ¬ casMatches orderId inv = true := fun inv hm hp =>
      (hdel inv hm ((casMatches_iff orderId inv).mp hp).1)
        ((casMatches_iff orderId inv).mp hp).2.2
    have hnone : db.find? (aliveWithOrderId orderId) = none :=
      List.find?_eq_none.mpr (fun a ha hp =>
        (hdel a ha ((aliveWithOrderId_iff orderId a).mp hp).1)
          ((aliveWithOrderId_iff orderId a).mp hp).2)
    refine ⟨hnone, ?_, ?_⟩
    · intro status pd now
      unfold updateStatusByOrderId
      rw [hnone]
    · intro ns pd now
      have h1 : (updateStatusAtomicFromPending orderId ns pd now db).1
          = CASResult.NOOP := by
        cases hres : (updateStatusAtomicFromPending orderId ns pd now db).1 with
        | NOOP => rfl
        | SUCCESS =>
          obtain ⟨inv, hm, hp⟩ := (cas_success_iff orderId ns pd now db).mp hres
          exact absurd hp (hall inv hm)
      have h2 := cas_noop_db orderId ns pd now db h1
      calc updateStatusAtomicFromPending orderId ns pd now db
          = ((updateStatusAtomicFromPending orderId ns pd now db).1,
             (updateStatusAtomicFromPending orderId ns pd now db).2) := rfl
        _ = (CASResult.NOOP, db) := by rw [h1, h2]

/-- Witness for C10: with only a soft-deleted row under ORD-1, the finder
returns none, the by-orderId update fails untouched, and the CAS no-ops. -/
theorem soft_deleted_rows_untouched_witness :
    findByOrderId "ORD-1" [sampleDeleted] = none ∧
    updateStatusByOrderId "ORD-1" InvoiceStatus.PAID none 9 [sampleDeleted] =
      (Except.error ServiceError.invoiceWithOrderIdNotFound, [sampleDeleted]) ∧
    updateStatusAtomicFromPending "ORD-1" InvoiceStatus.PAID none 9 [sampleDeleted] =
      (CASResult.NOOP, [sampleDeleted]) := by
  have h := soft_deleted_rows_untouched.2.2.2.2.1 "ORD-1" [sampleDeleted]
    (by intro inv hm h1; rcases List.mem_singleton.mp hm with rfl; decide)
  exact ⟨h.1, h.2.1 InvoiceStatus.PAID none 9, h.2.2 InvoiceStatus.PAID none 9⟩

end PaymentGateway
